import Mathlib

/-!
Verification of the cleaning-and-labeling pipeline of the TradeMind dataset
repository: `utils/data_cleaning.py` (clean_trades, clean_news,
clean_sentiment_labels) and `utils/labeling_functions.py`
(label_sentiment_keywords, apply_sentiment_to_news).

A pandas DataFrame is modelled as a list of column names together with a list
of rows (each row a list of cell values aligned with the columns).  Cell
values are modelled by the inductive type `Val`: strings, parsed numbers
(rationals stand in for Python floats), parsed datetimes (abstract instants),
the missing-value marker (NaN/NaT/None collapsed into one marker, whose
string form is "nan" as produced by `astype(str)` on a float NaN), and lists
of symbol strings.  The library parsers `pd.to_datetime` / `pd.to_numeric`
are not repository code; they are taken as parameters (a partial parsing
function), and `errors='coerce'` is modelled by mapping parse failure to the
missing marker.  Python string methods used by the source (`lower`, `strip`,
`startswith`, `in`, `split`) are modelled on the character lists underlying
Lean strings.
-/

namespace TradeMind

/-- A pandas cell value.  `vNum` models float cells by rationals (all numbers
arising in the claims are exact), `vDate` models parsed datetimes by an
abstract instant, `vNaN` is the single missing marker (NaN/NaT/None), and
`vList` models the lists produced by `str.split`. -/
inductive Val where
  | vStr (s : String)
  | vNum (q : Rat)
  | vDate (d : Nat)
  | vNaN
  | vList (xs : List String)
  deriving DecidableEq

/-- Rendering of a rational, standing in for Python's `str` on a float: the
exact digits do not matter to any claim, only that the first character is a
sign or a digit (never a dot). -/
def ratStr (q : Rat) : String :=
  (if q.num < 0 then "-" else "") ++ Nat.repr q.num.natAbs ++ "/" ++ Nat.repr q.den

/-- Rendering of an abstract instant, standing in for `str` on a pandas
Timestamp ("1970-01-01T…"): only the leading characters matter to the claims. -/
def dateStr (d : Nat) : String :=
  "1970-01-01T" ++ Nat.repr d

/-- Rendering of a list value, standing in for `str` on a Python list, which
always begins with a bracket. -/
def listStr (xs : List String) : String :=
  "[" ++ String.intercalate ", " xs ++ "]"

/-- Python `str()` of a cell value, as used by `astype(str)`.  `str` of a
float NaN is the three-letter string "nan". -/
def valStr : Val → String
  | .vStr s => s
  | .vNum q => ratStr q
  | .vDate d => dateStr d
  | .vNaN => "nan"
  | .vList xs => listStr xs

/-- Python `s.startswith(p)`. -/
def pyStartsWith (s p : String) : Bool :=
  p.data.isPrefixOf s.data

/-- Python `s.strip()`: remove leading and trailing whitespace. -/
def pyStrip (s : String) : String :=
  ⟨List.rdropWhile Char.isWhitespace (s.data.dropWhile Char.isWhitespace)⟩

/-- Python `s.lower()` (ASCII letters, as relevant to the keyword lists). -/
def pyLower (s : String) : String :=
  ⟨s.data.map Char.toLower⟩

/-- Occurrence of `n` as a contiguous subsequence of `h`, scanning positions
left to right. -/
def containsSeq (n : List Char) : List Char → Bool
  | [] => n.isEmpty
  | c :: cs => n.isPrefixOf (c :: cs) || containsSeq n cs

/-- Python `needle in hay` on strings. -/
def pyContains (hay needle : String) : Bool :=
  containsSeq needle.data hay.data

/-- A pandas DataFrame: named columns and positional rows. -/
structure Table where
  cols : List String
  rows : List (List Val)
  deriving DecidableEq

/-- Alignment invariant of a DataFrame: every row has one cell per column. -/
def WF (t : Table) : Prop :=
  ∀ r ∈ t.rows, r.length = t.cols.length

/-- Position of a named column (`df.columns.get_loc`), `none` when absent. -/
def colIdx? (t : Table) (c : String) : Option Nat :=
  t.cols.findIdx? (fun x => x == c)

/-- Replace column `i` cell-wise by `f` (`df[c] = f(df[c])` on an existing
column). -/
def mapColAt (t : Table) (i : Nat) (f : Val → Val) : Table :=
  ⟨t.cols, t.rows.map (fun r => r.set i (f (r.getD i .vNaN)))⟩

/-- `df[c] = f(df[c])`: reading a missing column raises `KeyError`. -/
def coerceCol (t : Table) (c : String) (f : Val → Val) : Except String Table :=
  match colIdx? t c with
  | none => .error ("KeyError: " ++ c)
  | some i => .ok (mapColAt t i f)

/-- The guarded form `if c in df.columns: df[c] = f(df[c])`. -/
def coerceOpt (t : Table) (c : String) (f : Val → Val) : Table :=
  match colIdx? t c with
  | none => t
  | some i => mapColAt t i f

/-- Column assignment `df[c] = vs`: replace the column in place when the name
exists, otherwise append it as a new last column. -/
def setCol (t : Table) (c : String) (vs : List Val) : Table :=
  match colIdx? t c with
  | some i => ⟨t.cols, List.zipWith (fun r v => r.set i v) t.rows vs⟩
  | none => ⟨t.cols ++ [c], List.zipWith (fun r v => r ++ [v]) t.rows vs⟩

/-- Placeholder test of `data_cleaning.py`: the row's first positional value,
via `astype(str)`, starts with the literal "...". -/
def isPlaceholder (v : Val) : Bool :=
  pyStartsWith (valStr v) "..."

/-- Rows kept by `df_cleaned[~df_cleaned.iloc[:, 0].astype(str).str.startswith('...')]`. -/
def keepRow (r : List Val) : Bool :=
  !(isPlaceholder (r.headD .vNaN))

/-- The placeholder-row filter, applied before any coercion. -/
def filterPlaceholders (t : Table) : Table :=
  ⟨t.cols, t.rows.filter keepRow⟩

/-- `pd.to_datetime(·, errors='coerce')` per cell, the library parser taken
as the parameter `p`: parse failure degrades to the missing marker. -/
def to_datetime (p : Val → Option Nat) (v : Val) : Val :=
  match p v with
  | some d => .vDate d
  | none => .vNaN

/-- `pd.to_numeric(·, errors='coerce')` per cell, the library parser taken
as the parameter `p`: parse failure degrades to the missing marker. -/
def to_numeric (p : Val → Option Rat) (v : Val) : Val :=
  match p v with
  | some q => .vNum q
  | none => .vNaN

/-- Text normalization of `clean_news`: `astype(str).str.strip()` — every
value is coerced to its string form, then trimmed. -/
def strip_text (v : Val) : Val :=
  .vStr (pyStrip (valStr v))

/-- Label normalization of `clean_sentiment_labels`:
`.str.lower().str.strip()` — the `.str` accessor lowers and trims string
values and turns every non-string value into the missing marker. -/
def lower_strip (v : Val) : Val :=
  match v with
  | .vStr s => .vStr (pyStrip (pyLower s))
  | _ => .vNaN

/-- Splitting a character list at every occurrence of the separator; an empty
input yields one empty field, as Python's `split` does. -/
def splitChar (sep : Char) : List Char → List (List Char)
  | [] => [[]]
  | c :: cs =>
    match splitChar sep cs with
    | [] => [[]]
    | g :: gs => if c = sep then [] :: g :: gs else (c :: g) :: gs

/-- Python `s.split(sep)` for a one-character separator, as used by
`.str.split(';')`. -/
def pySplit (s : String) (sep : Char) : List String :=
  (splitChar sep s.data).map (fun l => ⟨l⟩)

/-- Per-cell `related_symbols` derivation of `clean_news`:
`.str.split(';')` yields the split list on strings and the missing marker on
any non-string value; the subsequent lambda trims each element of a list and
passes every non-list (i.e. the missing marker) through. -/
def split_related (v : Val) : Val :=
  match v with
  | .vStr s => .vList ((pySplit s ';').map pyStrip)
  | _ => .vNaN

/-- The `related_symbols` step of `clean_news`: when the column exists, store
the per-row derivation into the (new) column `related_symbols_list`. -/
def deriveSymbols (t : Table) : Table :=
  match colIdx? t "related_symbols" with
  | none => t
  | some j => setCol t "related_symbols_list" (t.rows.map (fun r => split_related (r.getD j .vNaN)))

/-- `clean_trades` of `utils/data_cleaning.py`: copy, drop placeholder rows,
coerce `timestamp` to datetime and `price`, `volume` to numeric.  A table
with no columns makes `iloc[:, 0]` raise; a missing required column raises
`KeyError`. -/
def clean_trades (tsP : Val → Option Nat) (numP : Val → Option Rat) (df : Table) :
    Except String Table :=
  if df.cols.isEmpty then .error "IndexError: iloc" else
  match coerceCol (filterPlaceholders df) "timestamp" (to_datetime tsP) with
  | .error e => .error e
  | .ok t1 =>
    match coerceCol t1 "price" (to_numeric numP) with
    | .error e => .error e
    | .ok t2 => coerceCol t2 "volume" (to_numeric numP)

/-- `clean_news` of `utils/data_cleaning.py`: copy, drop placeholder rows,
coerce `timestamp`, strip the optional text columns `headline`, `summary`,
`source`, `category` when present, then derive `related_symbols_list` when
`related_symbols` is present. -/
def clean_news (tsP : Val → Option Nat) (df : Table) : Except String Table :=
  if df.cols.isEmpty then .error "IndexError: iloc" else
  match coerceCol (filterPlaceholders df) "timestamp" (to_datetime tsP) with
  | .error e => .error e
  | .ok t1 =>
    .ok (deriveSymbols
      (coerceOpt (coerceOpt (coerceOpt (coerceOpt t1 "headline" strip_text)
        "summary" strip_text) "source" strip_text) "category" strip_text))

/-- `clean_sentiment_labels` of `utils/data_cleaning.py`: copy, drop
placeholder rows, coerce `timestamp` and `confidence_score`, then lower-case
and strip the optional `sentiment_label` column when present. -/
def clean_sentiment_labels (tsP : Val → Option Nat) (numP : Val → Option Rat)
    (df : Table) : Except String Table :=
  if df.cols.isEmpty then .error "IndexError: iloc" else
  match coerceCol (filterPlaceholders df) "timestamp" (to_datetime tsP) with
  | .error e => .error e
  | .ok t1 =>
    match coerceCol t1 "confidence_score" (to_numeric numP) with
    | .error e => .error e
    | .ok t2 => .ok (coerceOpt t2 "sentiment_label" lower_strip)

/-- The positive marker vocabulary of `utils/labeling_functions.py`. -/
def POSITIVE_KEYWORDS : List String :=
  ["surge", "optimism", "grants", "expand", "lists", "reaches", "stabilization",
   "breakout", "gain", "grow", "positive", "support"]

/-- The negative marker vocabulary of `utils/labeling_functions.py`. -/
def NEGATIVE_KEYWORDS : List String :=
  ["dip", "uncertainty", "weighs", "delays", "volatile", "concerns", "negative",
   "correction", "fear", "drop", "risk"]

/-- `label_sentiment_keywords`: non-strings map to ("Neutral", 0); otherwise
each keyword contributes 1 when it occurs in the lower-cased text, and the
larger count decides the label (ties, including 0-0, are "Neutral" with
confidence 0).  Python's `float(count)` confidence is modelled by the exact
natural count. -/
def label_sentiment_keywords (text : Val) : String × Nat :=
  match text with
  | .vStr s =>
    let text_lower := pyLower s
    let pos_count := POSITIVE_KEYWORDS.countP (fun keyword => pyContains text_lower keyword)
    let neg_count := NEGATIVE_KEYWORDS.countP (fun keyword => pyContains text_lower keyword)
    if pos_count > neg_count then ("Positive", pos_count)
    else if neg_count > pos_count then ("Negative", neg_count)
    else ("Neutral", 0)
  | _ => ("Neutral", 0)

/-- `fillna('')`: replace the missing marker, leave everything else. -/
def fillna (w : Val) (v : Val) : Val :=
  match v with
  | .vNaN => w
  | _ => v

/-- `astype(str)` per cell. -/
def astype_str (v : Val) : Val :=
  .vStr (valStr v)

/-- `apply_sentiment_to_news`: report and return the input unchanged when the
text column is absent; otherwise overwrite the text column with
`astype(str).fillna('')` of itself (in the source this mutates the caller's
frame), classify each resulting cell, and append the two result columns. -/
def apply_sentiment_to_news (df : Table) (text_column : String) : Table :=
  match colIdx? df text_column with
  | none => df
  | some i =>
    let t1 := mapColAt df i (fun v => fillna (.vStr "") (astype_str v))
    let results := t1.rows.map (fun r => label_sentiment_keywords (r.getD i .vNaN))
    let t2 := setCol t1 "auto_sentiment_label" (results.map (fun p => Val.vStr p.1))
    setCol t2 "auto_sentiment_score" (results.map (fun p => Val.vNum (p.2 : Rat)))

/-- Everywhere-failing datetime parser, a concrete test instance. -/
def tsNone : Val → Option Nat := fun _ => none

/-- Everywhere-failing numeric parser, a concrete test instance. -/
def numNone : Val → Option Rat := fun _ => none

/-- Concrete trades table: one placeholder row, one data row. -/
def tradesW : Table :=
  ⟨["timestamp", "price", "volume"],
   [[.vStr "...c", .vStr "p", .vStr "v"], [.vStr "2023", .vStr "1", .vStr "2"]]⟩

/-! ### Helper lemmas -/

/-- Datetime parser test instance satisfying the pandas stability laws: an
already-parsed datetime re-parses to itself, missing stays missing. -/
def tsStable : Val → Option Nat := fun v =>
  match v with
  | .vDate d => some d
  | _ => none

/-- Numeric parser test instance satisfying the pandas stability laws. -/
def numStable : Val → Option Rat := fun v =>
  match v with
  | .vNum q => some q
  | _ => none

/-- Concrete news table with a `related_symbols` column holding one string
and one numeric (non-string) cell. -/
def newsW : Table :=
  ⟨["id", "timestamp", "related_symbols"],
   [[.vStr "NEWS-001", .vStr "2023", .vStr "BTC-USD;ETH-USD"],
    [.vStr "NEWS-002", .vStr "2023", .vNum 42]]⟩

/-- Concrete sentiment-labels table. -/
def sentW : Table :=
  ⟨["timestamp", "confidence_score", "sentiment_label"],
   [[.vStr "2023", .vStr "0.9", .vStr " Positive "]]⟩

/-- Concrete news table for the labeling operation: one headline present,
one missing. -/
def labelW : Table :=
  ⟨["id", "headline"],
   [[.vStr "NEWS-001", .vStr "Bitcoin Surges Past $34,000 Amid Spot ETF Optimism"],
    [.vStr "NEWS-002", .vNaN]]⟩

/-- Occurrence of `needle` as a contiguous substring of `hay`, stated the way
the specification reads ("appears as a substring"), independently of the
scanning implementation `containsSeq`. -/
def SubstrOf (needle hay : List Char) : Prop :=
  ∃ u v, u ++ needle ++ v = hay

/-! ### Helper lemmas -/

theorem findIdx?_some_facts {α : Type} (p : α → Bool) :
    ∀ (l : List α) (i : Nat), l.findIdx? p = some i →
      ∃ h : i < l.length, p (l.get ⟨i, h⟩) = true
  | [], i, h => by simp at h
  | a :: as, i, h => by
    rw [List.findIdx?_cons] at h
    by_cases hp : p a
    · rw [if_pos hp] at h
      injection h with h
      subst h
      exact ⟨Nat.succ_pos _, hp⟩
    · rw [if_neg hp, List.findIdx?_succ] at h
      rw [Option.map_eq_some'] at h
      obtain ⟨j, hj, hij⟩ := h
      subst hij
      obtain ⟨hlt, hget⟩ := findIdx?_some_facts p as j hj
      exact ⟨Nat.succ_lt_succ hlt, hget⟩

theorem colIdx?_some_facts {t : Table} {c : String} {i : Nat}
    (h : colIdx? t c = some i) : ∃ hlt : i < t.cols.length, t.cols.get ⟨i, hlt⟩ = c := by
  obtain ⟨hlt, hget⟩ := findIdx?_some_facts _ _ _ h
  exact ⟨hlt, by simpa using hget⟩

theorem colIdx?_isSome_of_mem {t : Table} {c : String} (h : c ∈ t.cols) :
    ∃ i, colIdx? t c = some i := by
  cases hfi : colIdx? t c with
  | some i => exact ⟨i, rfl⟩
  | none =>
    rw [colIdx?, List.findIdx?_eq_none_iff] at hfi
    have := hfi c h
    simp at this

theorem colIdx?_none_of_not_mem {t : Table} {c : String} (h : c ∉ t.cols) :
    colIdx? t c = none := by
  rw [colIdx?, List.findIdx?_eq_none_iff]
  intro x hx
  simp only [beq_eq_false_iff_ne, ne_eq]
  exact fun he => h (he ▸ hx)

theorem mem_of_colIdx?_some {t : Table} {c : String} {i : Nat}
    (h : colIdx? t c = some i) : c ∈ t.cols := by
  obtain ⟨hlt, hget⟩ := colIdx?_some_facts h
  exact hget ▸ List.get_mem _ _ _

theorem isEmpty_false_of_colIdx? {t : Table} {c : String} {i : Nat}
    (h : colIdx? t c = some i) : t.cols.isEmpty = false := by
  cases hc : t.cols with
  | nil => rw [colIdx?, hc] at h; simp at h
  | cons a as => rfl

theorem getD_set_ne {r : List Val} {i j : Nat} (x d : Val) (hij : i ≠ j) :
    (r.set i x).getD j d = r.getD j d := by
  rw [List.getD_eq_getElem?_getD, List.getD_eq_getElem?_getD, List.getElem?_set_ne hij]

theorem getD_set_self {r : List Val} {i : Nat} (x d : Val) (hi : i < r.length) :
    (r.set i x).getD i d = x := by
  rw [List.getD_eq_getElem?_getD, List.getElem?_set_self hi]
  rfl

theorem set_getD_self {r : List Val} {i : Nat} (d : Val) :
    r.set i (r.getD i d) = r := by
  apply List.ext_getElem?
  intro n
  by_cases hn : i = n
  · subst hn
    by_cases hi : i < r.length
    · rw [List.getElem?_set_self hi, List.getD_eq_getElem?_getD,
        List.getElem?_eq_getElem hi]
      rfl
    · rw [List.set_eq_of_length_le (Nat.le_of_not_lt hi)]
  · rw [List.getElem?_set_ne hn]

theorem filter_not_length {α : Type} (p : α → Bool) (l : List α) :
    (l.filter p).length + (l.filter (fun a => !p a)).length = l.length := by
  induction l with
  | nil => rfl
  | cons a as ih =>
    by_cases hp : p a <;> simp [List.filter_cons, hp] <;> omega

theorem countP_placeholder (l : List (List Val)) :
    (l.filter keepRow).length + l.countP (fun r => isPlaceholder (r.headD .vNaN)) = l.length := by
  have h1 : l.countP (fun r => isPlaceholder (r.headD .vNaN)) =
      (l.filter (fun r => !keepRow r)).length := by
    rw [List.countP_eq_length_filter]
    congr 1
    apply List.filter_congr
    intro r _
    simp [keepRow]
  rw [h1]
  exact filter_not_length _ _

theorem cols_mapColAt (t : Table) (i : Nat) (f : Val → Val) :
    (mapColAt t i f).cols = t.cols := rfl

theorem rows_mapColAt (t : Table) (i : Nat) (f : Val → Val) :
    (mapColAt t i f).rows = t.rows.map (fun r => r.set i (f (r.getD i .vNaN))) := rfl

theorem cols_coerceOpt (t : Table) (c : String) (f : Val → Val) :
    (coerceOpt t c f).cols = t.cols := by
  unfold coerceOpt
  cases colIdx? t c <;> rfl

theorem length_rows_coerceOpt (t : Table) (c : String) (f : Val → Val) :
    (coerceOpt t c f).rows.length = t.rows.length := by
  unfold coerceOpt
  cases colIdx? t c
  · rfl
  · simp [rows_mapColAt]

theorem length_rows_setCol (t : Table) (c : String) (vs : List Val)
    (h : vs.length = t.rows.length) : (setCol t c vs).rows.length = t.rows.length := by
  unfold setCol
  cases colIdx? t c <;> simp [h]

theorem length_rows_deriveSymbols (t : Table) :
    (deriveSymbols t).rows.length = t.rows.length := by
  unfold deriveSymbols
  cases colIdx? t "related_symbols"
  · rfl
  · exact length_rows_setCol _ _ _ (by simp)

theorem clean_trades_eq (tsP : Val → Option Nat) (numP : Val → Option Rat) (t : Table)
    {i1 i2 i3 : Nat}
    (h1 : colIdx? t "timestamp" = some i1)
    (h2 : colIdx? t "price" = some i2)
    (h3 : colIdx? t "volume" = some i3) :
    clean_trades tsP numP t = .ok ⟨t.cols,
      (((t.rows.filter keepRow).map
          (fun r => r.set i1 (to_datetime tsP (r.getD i1 .vNaN)))).map
          (fun r => r.set i2 (to_numeric numP (r.getD i2 .vNaN)))).map
          (fun r => r.set i3 (to_numeric numP (r.getD i3 .vNaN)))⟩ := by
  have hne := isEmpty_false_of_colIdx? h1
  unfold clean_trades coerceCol
  simp only [hne, Bool.false_eq_true, if_false]
  have e1 : colIdx? (filterPlaceholders t) "timestamp" = some i1 := h1
  rw [e1]
  dsimp only
  have e2 : colIdx? (mapColAt (filterPlaceholders t) i1 (to_datetime tsP)) "price" = some i2 := h2
  rw [e2]
  dsimp only
  have e3 : colIdx? (mapColAt (mapColAt (filterPlaceholders t) i1 (to_datetime tsP)) i2
      (to_numeric numP)) "volume" = some i3 := h3
  rw [e3]
  rfl

theorem clean_news_eq (tsP : Val → Option Nat) (t : Table) {i1 : Nat}
    (h1 : colIdx? t "timestamp" = some i1) :
    clean_news tsP t = .ok (deriveSymbols
      (coerceOpt (coerceOpt (coerceOpt (coerceOpt
        ⟨t.cols, (t.rows.filter keepRow).map
          (fun r => r.set i1 (to_datetime tsP (r.getD i1 .vNaN)))⟩
        "headline" strip_text) "summary" strip_text) "source" strip_text)
        "category" strip_text)) := by
  have hne := isEmpty_false_of_colIdx? h1
  unfold clean_news coerceCol
  simp only [hne, Bool.false_eq_true, if_false]
  have e1 : colIdx? (filterPlaceholders t) "timestamp" = some i1 := h1
  rw [e1]
  rfl

theorem clean_sentiment_eq (tsP : Val → Option Nat) (numP : Val → Option Rat) (t : Table)
    {i1 i2 : Nat}
    (h1 : colIdx? t "timestamp" = some i1)
    (h2 : colIdx? t "confidence_score" = some i2) :
    clean_sentiment_labels tsP numP t = .ok (coerceOpt
      ⟨t.cols, ((t.rows.filter keepRow).map
          (fun r => r.set i1 (to_datetime tsP (r.getD i1 .vNaN)))).map
          (fun r => r.set i2 (to_numeric numP (r.getD i2 .vNaN)))⟩
      "sentiment_label" lower_strip) := by
  have hne := isEmpty_false_of_colIdx? h1
  unfold clean_sentiment_labels coerceCol
  simp only [hne, Bool.false_eq_true, if_false]
  have e1 : colIdx? (filterPlaceholders t) "timestamp" = some i1 := h1
  rw [e1]
  dsimp only
  have e2 : colIdx? (mapColAt (filterPlaceholders t) i1 (to_datetime tsP))
      "confidence_score" = some i2 := h2
  rw [e2]
  rfl

theorem isEmpty_false_of_ne_nil {l : List String} (h : l ≠ []) : l.isEmpty = false := by
  cases l
  · exact absurd rfl h
  · rfl

theorem clean_trades_err_ts (tsP : Val → Option Nat) (numP : Val → Option Rat) (t : Table)
    (hne : t.cols.isEmpty = false) (h : colIdx? t "timestamp" = none) :
    clean_trades tsP numP t = .error ("KeyError: " ++ "timestamp") := by
  unfold clean_trades coerceCol
  have e1 : colIdx? (filterPlaceholders t) "timestamp" = none := h
  simp only [hne, Bool.false_eq_true, if_false, e1]

theorem clean_trades_err_price (tsP : Val → Option Nat) (numP : Val → Option Rat) (t : Table)
    {i1 : Nat} (h1 : colIdx? t "timestamp" = some i1) (h : colIdx? t "price" = none) :
    clean_trades tsP numP t = .error ("KeyError: " ++ "price") := by
  have hne := isEmpty_false_of_colIdx? h1
  unfold clean_trades coerceCol
  have e1 : colIdx? (filterPlaceholders t) "timestamp" = some i1 := h1
  have e2 : colIdx? (mapColAt (filterPlaceholders t) i1 (to_datetime tsP)) "price" = none := h
  simp only [hne, Bool.false_eq_true, if_false, e1, e2]

theorem clean_trades_err_volume (tsP : Val → Option Nat) (numP : Val → Option Rat) (t : Table)
    {i1 i2 : Nat} (h1 : colIdx? t "timestamp" = some i1) (h2 : colIdx? t "price" = some i2)
    (h : colIdx? t "volume" = none) :
    clean_trades tsP numP t = .error ("KeyError: " ++ "volume") := by
  have hne := isEmpty_false_of_colIdx? h1
  unfold clean_trades coerceCol
  have e1 : colIdx? (filterPlaceholders t) "timestamp" = some i1 := h1
  have e2 : colIdx? (mapColAt (filterPlaceholders t) i1 (to_datetime tsP)) "price" = some i2 := h2
  have e3 : colIdx? (mapColAt (mapColAt (filterPlaceholders t) i1 (to_datetime tsP)) i2
      (to_numeric numP)) "volume" = none := h
  simp only [hne, Bool.false_eq_true, if_false, e1, e2, e3]

theorem clean_news_err_ts (tsP : Val → Option Nat) (t : Table)
    (hne : t.cols.isEmpty = false) (h : colIdx? t "timestamp" = none) :
    clean_news tsP t = .error ("KeyError: " ++ "timestamp") := by
  unfold clean_news coerceCol
  have e1 : colIdx? (filterPlaceholders t) "timestamp" = none := h
  simp only [hne, Bool.false_eq_true, if_false, e1]

theorem clean_sent_err_ts (tsP : Val → Option Nat) (numP : Val → Option Rat) (t : Table)
    (hne : t.cols.isEmpty = false) (h : colIdx? t "timestamp" = none) :
    clean_sentiment_labels tsP numP t = .error ("KeyError: " ++ "timestamp") := by
  unfold clean_sentiment_labels coerceCol
  have e1 : colIdx? (filterPlaceholders t) "timestamp" = none := h
  simp only [hne, Bool.false_eq_true, if_false, e1]

theorem clean_sent_err_conf (tsP : Val → Option Nat) (numP : Val → Option Rat) (t : Table)
    {i1 : Nat} (h1 : colIdx? t "timestamp" = some i1)
    (h : colIdx? t "confidence_score" = none) :
    clean_sentiment_labels tsP numP t = .error ("KeyError: " ++ "confidence_score") := by
  have hne := isEmpty_false_of_colIdx? h1
  unfold clean_sentiment_labels coerceCol
  have e1 : colIdx? (filterPlaceholders t) "timestamp" = some i1 := h1
  have e2 : colIdx? (mapColAt (filterPlaceholders t) i1 (to_datetime tsP))
      "confidence_score" = none := h
  simp only [hne, Bool.false_eq_true, if_false, e1, e2]

/-! ### C10: required vs optional columns -/

/-- C10: on a table (with at least one column) missing one of its schema's
coerced columns — `timestamp` for any cleaner, `price`/`volume` for
clean_trades, `confidence_score` for clean_sentiment_labels — the cleaning
operation raises a key-lookup error; when all coerced columns are present the
operation succeeds even if every optional text field is absent, i.e. a
key-lookup error occurs exactly when a required column is missing. -/
theorem C10_required_column_errors (tsP : Val → Option Nat) (numP : Val → Option Rat) :
    (∀ t : Table, t.cols ≠ [] →
      ((∃ c, clean_trades tsP numP t = .error ("KeyError: " ++ c)) ↔
        ("timestamp" ∉ t.cols ∨ "price" ∉ t.cols ∨ "volume" ∉ t.cols))) ∧
    (∀ t : Table, t.cols ≠ [] →
      ((∃ c, clean_news tsP t = .error ("KeyError: " ++ c)) ↔ "timestamp" ∉ t.cols)) ∧
    (∀ t : Table, t.cols ≠ [] →
      ((∃ c, clean_sentiment_labels tsP numP t = .error ("KeyError: " ++ c)) ↔
        ("timestamp" ∉ t.cols ∨ "confidence_score" ∉ t.cols))) := by
  refine ⟨fun t hnil => ?_, fun t hnil => ?_, fun t hnil => ?_⟩
  · constructor
    · intro ⟨c, hc⟩
      by_contra hmem
      push_neg at hmem
      obtain ⟨ht, hp, hv⟩ := hmem
      obtain ⟨i1, h1⟩ := colIdx?_isSome_of_mem ht
      obtain ⟨i2, h2⟩ := colIdx?_isSome_of_mem hp
      obtain ⟨i3, h3⟩ := colIdx?_isSome_of_mem hv
      rw [clean_trades_eq tsP numP t h1 h2 h3] at hc
      cases hc
    · intro hmiss
      by_cases ht : "timestamp" ∈ t.cols
      · obtain ⟨i1, h1⟩ := colIdx?_isSome_of_mem ht
        by_cases hp : "price" ∈ t.cols
        · obtain ⟨i2, h2⟩ := colIdx?_isSome_of_mem hp
          have hv : "volume" ∉ t.cols := by tauto
          exact ⟨"volume", clean_trades_err_volume tsP numP t h1 h2
            (colIdx?_none_of_not_mem hv)⟩
        · exact ⟨"price", clean_trades_err_price tsP numP t h1
            (colIdx?_none_of_not_mem hp)⟩
      · exact ⟨"timestamp", clean_trades_err_ts tsP numP t
          (isEmpty_false_of_ne_nil hnil) (colIdx?_none_of_not_mem ht)⟩
  · constructor
    · intro ⟨c, hc⟩
      by_contra ht
      obtain ⟨i1, h1⟩ := colIdx?_isSome_of_mem ht
      rw [clean_news_eq tsP t h1] at hc
      cases hc
    · intro ht
      exact ⟨"timestamp", clean_news_err_ts tsP t
        (isEmpty_false_of_ne_nil hnil) (colIdx?_none_of_not_mem ht)⟩
  · constructor
    · intro ⟨c, hc⟩
      by_contra hmem
      push_neg at hmem
      obtain ⟨ht, hcf⟩ := hmem
      obtain ⟨i1, h1⟩ := colIdx?_isSome_of_mem ht
      obtain ⟨i2, h2⟩ := colIdx?_isSome_of_mem hcf
      rw [clean_sentiment_eq tsP numP t h1 h2] at hc
      cases hc
    · intro hmiss
      by_cases ht : "timestamp" ∈ t.cols
      · obtain ⟨i1, h1⟩ := colIdx?_isSome_of_mem ht
        have hcf : "confidence_score" ∉ t.cols := by tauto
        exact ⟨"confidence_score", clean_sent_err_conf tsP numP t h1
          (colIdx?_none_of_not_mem hcf)⟩
      · exact ⟨"timestamp", clean_sent_err_ts tsP numP t
          (isEmpty_false_of_ne_nil hnil) (colIdx?_none_of_not_mem ht)⟩

/-- Witness for C10: a trades table lacking `price` yields a key-lookup
error. -/
theorem C10_required_column_errors_witness :
    ∃ c, clean_trades tsNone numNone ⟨["timestamp", "volume"], []⟩ =
      .error ("KeyError: " ++ c) :=
  ((C10_required_column_errors tsNone numNone).1 ⟨["timestamp", "volume"], []⟩
    (by decide)).mpr (Or.inr (Or.inl (by decide)))

/-! ### C5: labeling a missing column -/

/-- C5: for every table and every column name absent from it,
`apply_sentiment_to_news` does not crash: it reports the configuration error
(a diagnostic print in the source) and returns the input table completely
unchanged — same rows, same values, same column set. -/
theorem C5_missing_column_unchanged (df : Table) (c : String) (h : c ∉ df.cols) :
    apply_sentiment_to_news df c = df := by
  unfold apply_sentiment_to_news
  rw [colIdx?_none_of_not_mem h]

/-- Witness for C5 at a concrete table and absent column name. -/
theorem C5_missing_column_unchanged_witness :
    apply_sentiment_to_news labelW "body_text" = labelW :=
  C5_missing_column_unchanged labelW "body_text" (by decide)

/-! ### C3 and C4: the keyword classifier -/

theorem containsSeq_iff (n : List Char) (h : List Char) :
    containsSeq n h = true ↔ SubstrOf n h := by
  induction h with
  | nil =>
    unfold containsSeq
    rw [List.isEmpty_iff]
    constructor
    · rintro rfl
      exact ⟨[], [], rfl⟩
    · rintro ⟨u, v, huv⟩
      obtain ⟨hu, hnv⟩ := List.append_eq_nil.mp huv
      exact (List.append_eq_nil.mp hu).2
  | cons c cs ih =>
    unfold containsSeq
    rw [Bool.or_eq_true, List.isPrefixOf_iff_prefix, ih]
    constructor
    · rintro (⟨v, hv⟩ | ⟨u, v, huv⟩)
      · exact ⟨[], v, by simpa using hv⟩
      · exact ⟨c :: u, v, by simp [huv]⟩
    · rintro ⟨u, v, huv⟩
      cases u with
      | nil => exact Or.inl ⟨v, by simpa using huv⟩
      | cons a u' =>
        right
        simp only [List.cons_append] at huv
        injection huv with h1 h2
        exact ⟨u', v, h2⟩

/-- C3: the classifier counts each positive and each negative marker at most
once — a marker contributes exactly 1 when it occurs as a substring of the
lower-cased text, however often it recurs (`countP` over the distinct marker
lists, with the boolean search provably equivalent to substring occurrence);
it answers "Positive" with confidence `pos_count` when `pos_count >
neg_count`, "Negative" with confidence `neg_count` when `neg_count >
pos_count`, "Neutral" with confidence 0 on ties (including 0-0); and every
non-string input yields ("Neutral", 0) without error. -/
theorem C3_classifier_decision_rule :
    (∀ v : Val, (∀ s, v ≠ .vStr s) → label_sentiment_keywords v = ("Neutral", 0)) ∧
    (∀ hay k : String, pyContains hay k = true ↔ SubstrOf k.data hay.data) ∧
    (∀ s : String,
      label_sentiment_keywords (.vStr s) =
        (let pos_count := POSITIVE_KEYWORDS.countP (fun k => pyContains (pyLower s) k)
         let neg_count := NEGATIVE_KEYWORDS.countP (fun k => pyContains (pyLower s) k)
         if pos_count > neg_count then ("Positive", pos_count)
         else if neg_count > pos_count then ("Negative", neg_count)
         else ("Neutral", 0))) := by
  refine ⟨fun v hv => ?_, fun hay k => containsSeq_iff k.data hay.data, fun s => rfl⟩
  cases v with
  | vStr s => exact absurd rfl (hv s)
  | vNum q => rfl
  | vDate d => rfl
  | vNaN => rfl
  | vList xs => rfl

/-- Witness for C3: the non-string clause applied at the missing marker. -/
theorem C3_classifier_decision_rule_witness :
    label_sentiment_keywords .vNaN = ("Neutral", 0) :=
  C3_classifier_decision_rule.1 .vNaN (fun _ h => Val.noConfusion h)

/-- C4: the classifier is a pure function of the text (recomputation yields
identical results), and on the specification's concrete inputs it returns
exactly ("Positive", 2), ("Negative", 2) and ("Neutral", 0); Python's float
confidences 2.0 / 0.0 are represented by the exact counts 2 / 0. -/
theorem C4_classifier_examples :
    (∀ v : Val, label_sentiment_keywords v = label_sentiment_keywords v) ∧
    label_sentiment_keywords
      (.vStr "Bitcoin Surges Past $34,000 Amid Spot ETF Optimism") = ("Positive", 2) ∧
    label_sentiment_keywords
      (.vStr "Regulatory Uncertainty Weighs on Cardano Development") = ("Negative", 2) ∧
    label_sentiment_keywords (.vStr "") = ("Neutral", 0) :=
  ⟨fun v => rfl, by decide, by decide, by decide⟩

/-! ### C2: per-cell coercion totality and independence -/

theorem forall2_map_self {R : List Val → List Val → Prop} {l : List (List Val)}
    {F : List Val → List Val} (h : ∀ r ∈ l, R r (F r)) :
    List.Forall₂ R l (l.map F) := by
  rw [List.forall₂_map_right_iff]
  exact List.forall₂_same.mpr h

theorem colIdx?_ne {t : Table} {c1 c2 : String} {i1 i2 : Nat} (hc : c1 ≠ c2)
    (h1 : colIdx? t c1 = some i1) (h2 : colIdx? t c2 = some i2) : i1 ≠ i2 := by
  intro he
  obtain ⟨l1, g1⟩ := colIdx?_some_facts h1
  obtain ⟨l2, g2⟩ := colIdx?_some_facts h2
  subst he
  apply hc
  rw [← g1, ← g2]

/-- C2: unparsable timestamp, price, volume or confidence_score cells never
raise during cleaning: a failed parse becomes the missing marker
(`to_datetime` / `to_numeric` with a parser that fails on a cell yield
`vNaN` there), the cleaning operations succeed, and cell-wise on every
surviving row each coerced cell depends only on the original value of that
same cell — in clean_trades the `price` and `volume` cells are coerced
independently and every other cell of the row is untouched, so a bad price
cannot invalidate the volume of its row. -/
theorem C2_coercion_totality (tsP : Val → Option Nat) (numP : Val → Option Rat) :
    (∀ v, tsP v = none → to_datetime tsP v = .vNaN) ∧
    (∀ v, numP v = none → to_numeric numP v = .vNaN) ∧
    (∀ (t : Table) (i1 i2 i3 : Nat), WF t →
      colIdx? t "timestamp" = some i1 → colIdx? t "price" = some i2 →
      colIdx? t "volume" = some i3 →
      ∃ u, clean_trades tsP numP t = .ok u ∧
        List.Forall₂ (fun r r' =>
          r'.getD i1 .vNaN = to_datetime tsP (r.getD i1 .vNaN) ∧
          r'.getD i2 .vNaN = to_numeric numP (r.getD i2 .vNaN) ∧
          r'.getD i3 .vNaN = to_numeric numP (r.getD i3 .vNaN) ∧
          ∀ j, j ≠ i1 → j ≠ i2 → j ≠ i3 → r'.getD j .vNaN = r.getD j .vNaN)
          (t.rows.filter keepRow) u.rows) ∧
    (∀ (t : Table) (i1 i2 : Nat), WF t →
      colIdx? t "timestamp" = some i1 → colIdx? t "confidence_score" = some i2 →
      ∃ u, clean_sentiment_labels tsP numP t = .ok u ∧
        List.Forall₂ (fun r r' =>
          r'.getD i1 .vNaN = to_datetime tsP (r.getD i1 .vNaN) ∧
          r'.getD i2 .vNaN = to_numeric numP (r.getD i2 .vNaN))
          (t.rows.filter keepRow) u.rows) := by
  refine ⟨fun v hv => by unfold to_datetime; rw [hv],
          fun v hv => by unfold to_numeric; rw [hv],
          fun t i1 i2 i3 hwf h1 h2 h3 => ?_, fun t i1 i2 hwf h1 h2 => ?_⟩
  · have d12 : i1 ≠ i2 := colIdx?_ne (by decide) h1 h2
    have d13 : i1 ≠ i3 := colIdx?_ne (by decide) h1 h3
    have d23 : i2 ≠ i3 := colIdx?_ne (by decide) h2 h3
    obtain ⟨b1, g1⟩ := colIdx?_some_facts h1
    refine ⟨_, clean_trades_eq tsP numP t h1 h2 h3, ?_⟩
    simp only [List.map_map]
    apply forall2_map_self
    intro r hr
    have hlen : r.length = t.cols.length := hwf r (List.mem_of_mem_filter hr)
    have hi1 : i1 < r.length := hlen ▸ b1
    simp only [Function.comp_apply]
    set a := to_datetime tsP (r.getD i1 .vNaN) with ha
    have e2 : (r.set i1 a).getD i2 .vNaN = r.getD i2 .vNaN := getD_set_ne _ _ d12
    rw [e2]
    set b := to_numeric numP (r.getD i2 .vNaN) with hb
    have e3 : ((r.set i1 a).set i2 b).getD i3 .vNaN = r.getD i3 .vNaN := by
      rw [getD_set_ne _ _ d23, getD_set_ne _ _ d13]
    rw [e3]
    set c := to_numeric numP (r.getD i3 .vNaN) with hc
    refine ⟨?_, ?_, ?_, ?_⟩
    · rw [getD_set_ne _ _ (Ne.symm d13), getD_set_ne _ _ (Ne.symm d12),
        getD_set_self _ _ hi1]
    · rw [getD_set_ne _ _ (Ne.symm d23),
        getD_set_self _ _ (by simpa using hlen ▸ (colIdx?_some_facts h2).1)]
    · rw [getD_set_self _ _ (by simpa using hlen ▸ (colIdx?_some_facts h3).1)]
    · intro j hj1 hj2 hj3
      rw [getD_set_ne _ _ (Ne.symm hj3), getD_set_ne _ _ (Ne.symm hj2),
        getD_set_ne _ _ (Ne.symm hj1)]
  · have d12 : i1 ≠ i2 := colIdx?_ne (by decide) h1 h2
    obtain ⟨b1, g1⟩ := colIdx?_some_facts h1
    refine ⟨_, clean_sentiment_eq tsP numP t h1 h2, ?_⟩
    set T2 : Table := ⟨t.cols, ((t.rows.filter keepRow).map
        (fun r => r.set i1 (to_datetime tsP (r.getD i1 .vNaN)))).map
        (fun r => r.set i2 (to_numeric numP (r.getD i2 .vNaN)))⟩ with hT2
    have core : ∀ r ∈ t.rows.filter keepRow,
        ((r.set i1 (to_datetime tsP (r.getD i1 .vNaN))).set i2
          (to_numeric numP ((r.set i1 (to_datetime tsP (r.getD i1 .vNaN))).getD i2 .vNaN))).getD
            i1 .vNaN = to_datetime tsP (r.getD i1 .vNaN) ∧
        ((r.set i1 (to_datetime tsP (r.getD i1 .vNaN))).set i2
          (to_numeric numP ((r.set i1 (to_datetime tsP (r.getD i1 .vNaN))).getD i2 .vNaN))).getD
            i2 .vNaN = to_numeric numP (r.getD i2 .vNaN) := by
      intro r hr
      have hlen : r.length = t.cols.length := hwf r (List.mem_of_mem_filter hr)
      have hi1 : i1 < r.length := hlen ▸ b1
      have e2 : (r.set i1 (to_datetime tsP (r.getD i1 .vNaN))).getD i2 .vNaN =
          r.getD i2 .vNaN := getD_set_ne _ _ d12
      constructor
      · rw [e2, getD_set_ne _ _ (Ne.symm d12), getD_set_self _ _ hi1]
      · rw [e2, getD_set_self _ _ (by simpa using hlen ▸ (colIdx?_some_facts h2).1)]
    unfold coerceOpt
    cases h4 : colIdx? T2 "sentiment_label" with
    | none =>
      simp only [hT2, List.map_map]
      apply forall2_map_self
      intro r hr
      simpa using core r hr
    | some i4 =>
      have h1T : colIdx? T2 "timestamp" = some i1 := h1
      have h2T : colIdx? T2 "confidence_score" = some i2 := h2
      have d14 : i1 ≠ i4 := colIdx?_ne (by decide) h1T h4
      have d24 : i2 ≠ i4 := colIdx?_ne (by decide) h2T h4
      simp only [rows_mapColAt, hT2, List.map_map]
      apply forall2_map_self
      intro r hr
      obtain ⟨c1, c2⟩ := core r hr
      simp only [Function.comp_apply]
      refine ⟨?_, ?_⟩
      · rw [getD_set_ne _ _ (Ne.symm d14)]
        simpa using c1
      · rw [getD_set_ne _ _ (Ne.symm d24)]
        simpa using c2

/-- Witness for C2: the trades clause at a concrete table whose second row
has an unparsable price. -/
theorem C2_coercion_totality_witness :
    ∃ u, clean_trades tsNone numNone tradesW = .ok u ∧
      List.Forall₂ (fun r r' =>
        r'.getD 0 .vNaN = to_datetime tsNone (r.getD 0 .vNaN) ∧
        r'.getD 1 .vNaN = to_numeric numNone (r.getD 1 .vNaN) ∧
        r'.getD 2 .vNaN = to_numeric numNone (r.getD 2 .vNaN) ∧
        ∀ j, j ≠ 0 → j ≠ 1 → j ≠ 2 → r'.getD j .vNaN = r.getD j .vNaN)
        (tradesW.rows.filter keepRow) u.rows :=
  (C2_coercion_totality tsNone numNone).2.2.1 tradesW 0 1 2
    (by intro r hr; fin_cases hr <;> rfl) (by decide) (by decide) (by decide)

/-! ### C8: related_symbols derivation -/

theorem getD_concat_length (l : List Val) (v d : Val) :
    (l ++ [v]).getD l.length d = v := by
  rw [List.getD_eq_getElem?_getD, List.getElem?_concat_length]
  rfl

theorem getD_append_left (l l2 : List Val) {j : Nat} (h : j < l.length) (d : Val) :
    (l ++ l2).getD j d = l.getD j d := by
  rw [List.getD_eq_getElem?_getD, List.getD_eq_getElem?_getD, List.getElem?_append_left h]

theorem coerceOpt_rows_fn (T : Table) (c : String) (f : Val → Val) :
    ∃ G : List Val → List Val, (coerceOpt T c f).rows = T.rows.map G ∧
      (∀ r, (G r).length = r.length) ∧
      (∀ r j d, (∀ i, colIdx? T c = some i → i ≠ j) → (G r).getD j d = r.getD j d) := by
  unfold coerceOpt
  cases hc : colIdx? T c with
  | none => exact ⟨id, by simp, fun r => rfl, fun r j d _ => rfl⟩
  | some i =>
    refine ⟨fun r => r.set i (f (r.getD i .vNaN)), rfl, fun r => by simp, ?_⟩
    intro r j d hne
    have : i ≠ j := hne i rfl
    rw [List.getD_eq_getElem?_getD, List.getD_eq_getElem?_getD, List.getElem?_set_ne this]

/-- C8 counterexample: in `clean_news`, a non-string `related_symbols` value
(here the number 42) does not pass through unchanged into the derived
`related_symbols_list` value — it becomes the missing marker. -/
theorem C8_counterexample :
    clean_news tsNone newsW =
      .ok ⟨["id", "timestamp", "related_symbols", "related_symbols_list"],
        [[.vStr "NEWS-001", .vNaN, .vStr "BTC-USD;ETH-USD",
          .vList ["BTC-USD", "ETH-USD"]],
         [.vStr "NEWS-002", .vNaN, .vNum 42, .vNaN]]⟩ ∧
    Val.vNaN ≠ Val.vNum 42 :=
  ⟨rfl, by decide⟩

/-- C8 amended: in `clean_news`, for every row whose `related_symbols` value
is a string the derived `related_symbols_list` value is the ordered sequence
obtained by splitting on ';' and trimming each element, while the original
`related_symbols` cell is kept unchanged; for every row whose value is not a
string the derived value is the missing marker (missing passes through as
missing) — never an empty sequence, but also not the original non-string
value. -/
theorem C8_related_symbols_derivation (tsP : Val → Option Nat) (t : Table)
    (i1 j : Nat) (hwf : WF t)
    (h1 : colIdx? t "timestamp" = some i1)
    (hj : colIdx? t "related_symbols" = some j)
    (hnew : "related_symbols_list" ∉ t.cols) :
    ∃ u, clean_news tsP t = .ok u ∧
      u.cols = t.cols ++ ["related_symbols_list"] ∧
      List.Forall₂ (fun r r' =>
        r'.getD j .vNaN = r.getD j .vNaN ∧
        (∀ s, r.getD j .vNaN = .vStr s →
          r'.getD t.cols.length .vNaN = .vList ((pySplit s ';').map pyStrip)) ∧
        ((∀ s, r.getD j .vNaN ≠ .vStr s) →
          r'.getD t.cols.length .vNaN = .vNaN))
        (t.rows.filter keepRow) u.rows := by
  have hd1j : i1 ≠ j := colIdx?_ne (by decide) h1 hj
  obtain ⟨bj, gj⟩ := colIdx?_some_facts hj
  set F1 : List Val → List Val := fun r => r.set i1 (to_datetime tsP (r.getD i1 .vNaN)) with hF1
  set T1 : Table := ⟨t.cols, (t.rows.filter keepRow).map F1⟩ with hT1
  obtain ⟨G1, hr1, hl1, hg1⟩ := coerceOpt_rows_fn T1 "headline" strip_text
  set T2 := coerceOpt T1 "headline" strip_text with hT2
  obtain ⟨G2, hr2, hl2, hg2⟩ := coerceOpt_rows_fn T2 "summary" strip_text
  set T3 := coerceOpt T2 "summary" strip_text with hT3
  obtain ⟨G3, hr3, hl3, hg3⟩ := coerceOpt_rows_fn T3 "source" strip_text
  set T4 := coerceOpt T3 "source" strip_text with hT4
  obtain ⟨G4, hr4, hl4, hg4⟩ := coerceOpt_rows_fn T4 "category" strip_text
  set T5 := coerceOpt T4 "category" strip_text with hT5
  have hcols2 : T2.cols = t.cols := cols_coerceOpt _ _ _
  have hcols3 : T3.cols = t.cols := by rw [hT3, cols_coerceOpt, hcols2]
  have hcols4 : T4.cols = t.cols := by rw [hT4, cols_coerceOpt, hcols3]
  have hcols5 : T5.cols = t.cols := by rw [hT5, cols_coerceOpt, hcols4]
  -- the composed per-row action of the four optional strip steps
  have hrows5 : T5.rows = (t.rows.filter keepRow).map (fun r => G4 (G3 (G2 (G1 (F1 r))))) := by
    rw [hT5, hr4, hT4, hr3, hT3, hr2, hT2, hr1, hT1]
    simp [List.map_map, Function.comp_def]
  -- names of the four optional columns differ from related_symbols
  have hj2 : colIdx? T2 "related_symbols" = some j := by
    show T2.cols.findIdx? (fun x => x == "related_symbols") = some j
    rw [hcols2]; exact hj
  have hj3 : colIdx? T3 "related_symbols" = some j := by
    show T3.cols.findIdx? (fun x => x == "related_symbols") = some j
    rw [hcols3]; exact hj
  have hj4 : colIdx? T4 "related_symbols" = some j := by
    show T4.cols.findIdx? (fun x => x == "related_symbols") = some j
    rw [hcols4]; exact hj
  have hj5 : colIdx? T5 "related_symbols" = some j := by
    show T5.cols.findIdx? (fun x => x == "related_symbols") = some j
    rw [hcols5]; exact hj
  -- cell j and row length are preserved through the strip chain
  have hkeepj : ∀ r : List Val, (G4 (G3 (G2 (G1 (F1 r))))).getD j .vNaN = r.getD j .vNaN := by
    intro r
    rw [hg4 _ _ _ (fun i hi => colIdx?_ne (by decide) hi hj4),
        hg3 _ _ _ (fun i hi => colIdx?_ne (by decide) hi hj3),
        hg2 _ _ _ (fun i hi => colIdx?_ne (by decide) hi hj2),
        hg1 _ _ _ (fun i hi => colIdx?_ne (by decide) hi (show colIdx? T1 "related_symbols" = some j from hj))]
    exact getD_set_ne _ _ hd1j
  have hkeeplen : ∀ r : List Val, (G4 (G3 (G2 (G1 (F1 r))))).length = r.length := by
    intro r
    rw [hl4, hl3, hl2, hl1]
    simp [hF1]
  -- the derive step appends the new column at the end
  have hnew5 : colIdx? T5 "related_symbols_list" = none := by
    show T5.cols.findIdx? (fun x => x == "related_symbols_list") = none
    rw [hcols5]
    exact colIdx?_none_of_not_mem hnew
  refine ⟨deriveSymbols T5, ?_, ?_, ?_⟩
  · have := clean_news_eq tsP t h1
    rw [this]
  · unfold deriveSymbols
    rw [hj5]
    unfold setCol
    rw [hnew5]
    show T5.cols ++ ["related_symbols_list"] = t.cols ++ ["related_symbols_list"]
    rw [hcols5]
  · unfold deriveSymbols
    rw [hj5]
    unfold setCol
    rw [hnew5]
    show List.Forall₂ _ (t.rows.filter keepRow)
      (List.zipWith (fun r v => r ++ [v]) T5.rows (T5.rows.map (fun r => split_related (r.getD j .vNaN))))
    rw [List.zipWith_map_right, List.zipWith_same, hrows5, List.map_map]
    apply forall2_map_self
    intro r hr
    have hlen : r.length = t.cols.length := hwf r (List.mem_of_mem_filter hr)
    have hjr : j < (G4 (G3 (G2 (G1 (F1 r))))).length := by
      rw [hkeeplen, hlen]; exact bj
    simp only [Function.comp_apply]
    refine ⟨?_, ?_, ?_⟩
    · rw [getD_append_left _ _ hjr, hkeepj]
    · intro s hs
      have : (G4 (G3 (G2 (G1 (F1 r))))).length = t.cols.length := by rw [hkeeplen, hlen]
      rw [← this, getD_concat_length, hkeepj, hs]
      rfl
    · intro hns
      have : (G4 (G3 (G2 (G1 (F1 r))))).length = t.cols.length := by rw [hkeeplen, hlen]
      rw [← this, getD_concat_length, hkeepj]
      cases hv : r.getD j .vNaN with
      | vStr s => exact absurd hv (hns s)
      | vNum q => rfl
      | vDate d => rfl
      | vNaN => rfl
      | vList xs => rfl

/-- Witness for C8 (amended) on the concrete news table `newsW`. -/
theorem C8_related_symbols_derivation_witness :
    ∃ u, clean_news tsNone newsW = .ok u ∧
      u.cols = newsW.cols ++ ["related_symbols_list"] ∧
      List.Forall₂ (fun r r' =>
        r'.getD 2 .vNaN = r.getD 2 .vNaN ∧
        (∀ s, r.getD 2 .vNaN = .vStr s →
          r'.getD newsW.cols.length .vNaN = .vList ((pySplit s ';').map pyStrip)) ∧
        ((∀ s, r.getD 2 .vNaN ≠ .vStr s) →
          r'.getD newsW.cols.length .vNaN = .vNaN))
        (newsW.rows.filter keepRow) u.rows :=
  C8_related_symbols_derivation tsNone newsW 1 2
    (by intro r hr; fin_cases hr <;> rfl) (by decide) (by decide) (by decide)

/-! ### C6 and C7: the labeling operation's effect on the table -/

theorem apply_sentiment_eq (df : Table) (tc : String) (i : Nat)
    (hi : colIdx? df tc = some i)
    (hl : "auto_sentiment_label" ∉ df.cols)
    (hs : "auto_sentiment_score" ∉ df.cols) :
    apply_sentiment_to_news df tc =
      ⟨(df.cols ++ ["auto_sentiment_label"]) ++ ["auto_sentiment_score"],
       df.rows.map (fun r =>
         (r.set i (fillna (.vStr "") (astype_str (r.getD i .vNaN))) ++
           [Val.vStr (label_sentiment_keywords
             ((r.set i (fillna (.vStr "") (astype_str (r.getD i .vNaN)))).getD i .vNaN)).1]) ++
           [Val.vNum ((label_sentiment_keywords
             ((r.set i (fillna (.vStr "") (astype_str (r.getD i .vNaN)))).getD i .vNaN)).2 : Rat)])⟩ := by
  unfold apply_sentiment_to_news
  rw [hi]
  set F : List Val → List Val :=
    fun r => r.set i (fillna (.vStr "") (astype_str (r.getD i .vNaN))) with hF
  set T1 : Table := mapColAt df i (fun v => fillna (.vStr "") (astype_str v)) with hT1
  have hT1rows : T1.rows = df.rows.map F := rfl
  have hT1cols : T1.cols = df.cols := rfl
  have hlb1 : colIdx? T1 "auto_sentiment_label" = none := by
    show T1.cols.findIdx? (fun x => x == "auto_sentiment_label") = none
    rw [hT1cols]
    exact colIdx?_none_of_not_mem hl
  set res : List Val → String × Nat :=
    fun r => label_sentiment_keywords (r.getD i .vNaN) with hres
  set T2 := setCol T1 "auto_sentiment_label" ((T1.rows.map (fun r => res r)).map
    (fun p => Val.vStr p.1)) with hT2
  have hT2eq : T2 = ⟨df.cols ++ ["auto_sentiment_label"],
      df.rows.map (fun r => F r ++ [Val.vStr (res (F r)).1])⟩ := by
    rw [hT2]
    unfold setCol
    rw [hlb1]
    show (⟨T1.cols ++ ["auto_sentiment_label"],
      List.zipWith (fun r v => r ++ [v]) T1.rows ((T1.rows.map (fun r => res r)).map
        (fun p => Val.vStr p.1))⟩ : Table) = _
    rw [hT1cols, hT1rows, List.map_map, List.zipWith_map_right, List.zipWith_same,
      List.map_map]
    rfl
  have hsc2 : colIdx? T2 "auto_sentiment_score" = none := by
    rw [hT2eq]
    show (df.cols ++ ["auto_sentiment_label"]).findIdx? (fun x => x == "auto_sentiment_score") = none
    rw [List.findIdx?_eq_none_iff]
    intro x hx
    simp only [List.mem_append, List.mem_singleton] at hx
    rcases hx with hx | hx
    · simp only [beq_eq_false_iff_ne, ne_eq]
      exact fun he => hs (he ▸ hx)
    · subst hx
      decide
  show setCol T2 "auto_sentiment_score" ((T1.rows.map (fun r => res r)).map
    (fun p => Val.vNum (p.2 : Rat))) = _
  unfold setCol
  rw [hsc2, hT2eq]
  show (⟨(df.cols ++ ["auto_sentiment_label"]) ++ ["auto_sentiment_score"],
    List.zipWith (fun r v => r ++ [v])
      (df.rows.map (fun r => F r ++ [Val.vStr (res (F r)).1]))
      ((T1.rows.map (fun r => res r)).map (fun p => Val.vNum (p.2 : Rat)))⟩ : Table) = _
  rw [hT1rows, List.map_map, List.map_map, List.zipWith_map, List.zipWith_same]
  rfl


/-- C6 counterexample: `apply_sentiment_to_news` does not leave every
pre-existing column unchanged — the target text column is overwritten with
`astype(str).fillna('')` of itself, so a missing headline becomes the string
"nan" in the output (and, in the source, in the caller's own frame, which is
mutated in place rather than copied). -/
theorem C6_counterexample :
    apply_sentiment_to_news labelW "headline" =
      ⟨["id", "headline", "auto_sentiment_label", "auto_sentiment_score"],
       [[.vStr "NEWS-001", .vStr "Bitcoin Surges Past $34,000 Amid Spot ETF Optimism",
         .vStr "Positive", .vNum 2],
        [.vStr "NEWS-002", .vStr "nan", .vStr "Neutral", .vNum 0]]⟩ ∧
    Val.vStr "nan" ≠ Val.vNaN :=
  ⟨rfl, by decide⟩

theorem apply_sentiment_frame (df : Table) (tc : String) (i : Nat) (hwf : WF df)
    (hi : colIdx? df tc = some i)
    (hl : "auto_sentiment_label" ∉ df.cols)
    (hs : "auto_sentiment_score" ∉ df.cols) :
    (apply_sentiment_to_news df tc).cols =
      df.cols ++ ["auto_sentiment_label", "auto_sentiment_score"] ∧
    List.Forall₂ (fun r r' =>
      (∀ j, j ≠ i → j < df.cols.length → r'.getD j .vNaN = r.getD j .vNaN) ∧
      r'.getD i .vNaN = fillna (.vStr "") (astype_str (r.getD i .vNaN)) ∧
      r'.getD df.cols.length .vNaN =
        .vStr (label_sentiment_keywords (fillna (.vStr "") (astype_str (r.getD i .vNaN)))).1 ∧
      r'.getD (df.cols.length + 1) .vNaN =
        .vNum ((label_sentiment_keywords (fillna (.vStr "") (astype_str (r.getD i .vNaN)))).2 : Rat))
      df.rows (apply_sentiment_to_news df tc).rows := by
  obtain ⟨bi, gi⟩ := colIdx?_some_facts hi
  rw [apply_sentiment_eq df tc i hi hl hs]
  refine ⟨by simp, ?_⟩
  apply forall2_map_self
  intro r hr
  have hlen : r.length = df.cols.length := hwf r hr
  have hib : i < r.length := hlen ▸ bi
  set w := fillna (.vStr "") (astype_str (r.getD i .vNaN)) with hw
  have hFi : (r.set i w).getD i .vNaN = w := getD_set_self _ _ hib
  have hFlen : (r.set i w).length = r.length := by simp
  have hn1 : r.length < (r.set i w ++ [Val.vStr (label_sentiment_keywords
      ((r.set i w).getD i .vNaN)).1]).length := by
    simp
  refine ⟨?_, ?_, ?_, ?_⟩
  · intro j hji hjlt
    have hjr : j < r.length := hlen ▸ hjlt
    rw [getD_append_left _ _ (by simp [hjr]; omega), getD_append_left _ _ (by simpa using hjr)]
    exact getD_set_ne _ _ (Ne.symm hji)
  · rw [getD_append_left _ _ (by simp [hib]; omega), getD_append_left _ _ (by simpa using hib)]
    exact hFi
  · rw [← hlen, getD_append_left _ _ hn1]
    have : r.length = (r.set i w).length := hFlen.symm
    rw [this, getD_concat_length, hFi]
  · have : df.cols.length + 1 = (r.set i w ++ [Val.vStr (label_sentiment_keywords
        ((r.set i w).getD i .vNaN)).1]).length := by
      simp [hlen]
    rw [this, getD_concat_length, hFi]

/-- C6 amended: the cleaning functions operate on a copy (value-level purity
is inherent to the model), and on success the labeling operation yields the
input table with exactly the two columns `auto_sentiment_label` and
`auto_sentiment_score` appended and every pre-existing column except the
target text column unchanged; the target text column's values are replaced by
their string forms (missing values becoming the string "nan"), which is also
the text the classifier is fed. -/
theorem C6_labeling_frame (df : Table) (tc : String) (i : Nat) (hwf : WF df)
    (hi : colIdx? df tc = some i)
    (hl : "auto_sentiment_label" ∉ df.cols)
    (hs : "auto_sentiment_score" ∉ df.cols) :
    (apply_sentiment_to_news df tc).cols =
      df.cols ++ ["auto_sentiment_label", "auto_sentiment_score"] ∧
    List.Forall₂ (fun r r' =>
      (∀ j, j ≠ i → j < df.cols.length → r'.getD j .vNaN = r.getD j .vNaN) ∧
      r'.getD i .vNaN = fillna (.vStr "") (astype_str (r.getD i .vNaN)) ∧
      r'.getD df.cols.length .vNaN =
        .vStr (label_sentiment_keywords (fillna (.vStr "") (astype_str (r.getD i .vNaN)))).1 ∧
      r'.getD (df.cols.length + 1) .vNaN =
        .vNum ((label_sentiment_keywords (fillna (.vStr "") (astype_str (r.getD i .vNaN)))).2 : Rat))
      df.rows (apply_sentiment_to_news df tc).rows :=
  apply_sentiment_frame df tc i hwf hi hl hs

/-- Witness for C6 (amended) on the concrete news table `labelW`. -/
theorem C6_labeling_frame_witness :
    (apply_sentiment_to_news labelW "headline").cols =
      labelW.cols ++ ["auto_sentiment_label", "auto_sentiment_score"] ∧
    List.Forall₂ (fun r r' =>
      (∀ j, j ≠ 1 → j < labelW.cols.length → r'.getD j .vNaN = r.getD j .vNaN) ∧
      r'.getD 1 .vNaN = fillna (.vStr "") (astype_str (r.getD 1 .vNaN)) ∧
      r'.getD labelW.cols.length .vNaN =
        .vStr (label_sentiment_keywords (fillna (.vStr "") (astype_str (r.getD 1 .vNaN)))).1 ∧
      r'.getD (labelW.cols.length + 1) .vNaN =
        .vNum ((label_sentiment_keywords (fillna (.vStr "") (astype_str (r.getD 1 .vNaN)))).2 : Rat))
      labelW.rows (apply_sentiment_to_news labelW "headline").rows :=
  C6_labeling_frame labelW "headline" 1 (by intro r hr; fin_cases hr <;> rfl)
    (by decide) (by decide) (by decide)

/-- C7 counterexample: a missing text value is not treated as the empty
string before classification — `astype(str)` turns the missing marker into
the string "nan" (so the subsequent `fillna('')` finds nothing to fill), and
"nan", not "", is the value stored back into the text column.  The
classification result nevertheless coincides with that of the empty string:
("Neutral", 0). -/
theorem C7_counterexample :
    apply_sentiment_to_news ⟨["headline"], [[.vNaN]]⟩ "headline" =
      ⟨["headline", "auto_sentiment_label", "auto_sentiment_score"],
       [[.vStr "nan", .vStr "Neutral", .vNum 0]]⟩ ∧
    Val.vStr "nan" ≠ Val.vStr "" :=
  ⟨rfl, by decide⟩

/-- C7 amended: in `apply_sentiment_to_news`, every row whose target-column
value is missing is processed without aborting: the missing value becomes the
string "nan" (the string form of the missing marker, not the empty string),
and such rows are classified ("Neutral", 0) — the same result the empty
string would give. -/
theorem C7_missing_text_neutral (df : Table) (tc : String) (i : Nat) (hwf : WF df)
    (hi : colIdx? df tc = some i)
    (hl : "auto_sentiment_label" ∉ df.cols)
    (hs : "auto_sentiment_score" ∉ df.cols) :
    label_sentiment_keywords (.vStr "") = ("Neutral", 0) ∧
    List.Forall₂ (fun r r' => r.getD i .vNaN = .vNaN →
        r'.getD i .vNaN = .vStr "nan" ∧
        r'.getD df.cols.length .vNaN = .vStr "Neutral" ∧
        r'.getD (df.cols.length + 1) .vNaN = .vNum 0)
      df.rows (apply_sentiment_to_news df tc).rows := by
  refine ⟨by decide, ?_⟩
  have hframe := (apply_sentiment_frame df tc i hwf hi hl hs).2
  refine hframe.imp ?_
  intro r r' hrr hmiss
  obtain ⟨hother, htext, hlabel, hscore⟩ := hrr
  have hnl : label_sentiment_keywords (.vStr "nan") = ("Neutral", 0) := by decide
  rw [hmiss] at htext hlabel hscore
  refine ⟨htext, ?_, ?_⟩
  · rw [hlabel]
    show Val.vStr (label_sentiment_keywords (.vStr "nan")).1 = _
    rw [hnl]
  · rw [hscore]
    show Val.vNum ((label_sentiment_keywords (.vStr "nan")).2 : Rat) = _
    rw [hnl]
    norm_num

/-- Witness for C7 (amended) on a one-row table whose text cell is missing. -/
theorem C7_missing_text_neutral_witness :
    label_sentiment_keywords (.vStr "") = ("Neutral", 0) ∧
    List.Forall₂ (fun r r' => r.getD 0 .vNaN = .vNaN →
        r'.getD 0 .vNaN = .vStr "nan" ∧
        r'.getD (⟨["headline"], [[Val.vNaN]]⟩ : Table).cols.length .vNaN = .vStr "Neutral" ∧
        r'.getD ((⟨["headline"], [[Val.vNaN]]⟩ : Table).cols.length + 1) .vNaN = .vNum 0)
      (⟨["headline"], [[Val.vNaN]]⟩ : Table).rows
      (apply_sentiment_to_news ⟨["headline"], [[Val.vNaN]]⟩ "headline").rows :=
  C7_missing_text_neutral ⟨["headline"], [[Val.vNaN]]⟩ "headline" 0
    (by intro r hr; fin_cases hr; rfl) (by decide) (by decide) (by decide)

/-! ### C9: idempotence groundwork -/

theorem digitChar_ne_dot (k : Nat) : Nat.digitChar k ≠ '.' := by
  rcases Nat.lt_or_ge k 16 with h | h
  · interval_cases k <;> decide
  · have e : Nat.digitChar k = '*' := by
      unfold Nat.digitChar
      repeat rw [if_neg (by omega)]
    rw [e]
    decide

theorem toDigitsCore_shape (b : Nat) :
    ∀ (fuel n : Nat) (ds : List Char), Nat.toDigitsCore b fuel n ds = ds ∨
      ∃ k rest, Nat.toDigitsCore b fuel n ds = Nat.digitChar k :: rest := by
  intro fuel
  induction fuel with
  | zero => intro n ds; exact Or.inl rfl
  | succ fuel ih =>
    intro n ds
    have hstep : Nat.toDigitsCore b (fuel + 1) n ds =
        if n / b = 0 then Nat.digitChar (n % b) :: ds
        else Nat.toDigitsCore b fuel (n / b) (Nat.digitChar (n % b) :: ds) := rfl
    rw [hstep]
    by_cases hz : n / b = 0
    · rw [if_pos hz]
      exact Or.inr ⟨n % b, ds, rfl⟩
    · rw [if_neg hz]
      rcases ih (n / b) (Nat.digitChar (n % b) :: ds) with h | ⟨k, rest, h⟩
      · exact Or.inr ⟨n % b, ds, h⟩
      · exact Or.inr ⟨k, rest, h⟩

theorem dots_isPrefixOf_cons_false {c : Char} (cs : List Char) (hc : c ≠ '.') :
    "...".data.isPrefixOf (c :: cs) = false := by
  show (('.' == c) && ("..".data.isPrefixOf cs)) = false
  have : ('.' == c) = false := beq_eq_false_iff_ne.mpr (fun he => hc he.symm)
  rw [this, Bool.false_and]

theorem natRepr_not_dots (n : Nat) : "...".data.isPrefixOf (Nat.repr n).data = false := by
  show "...".data.isPrefixOf (Nat.toDigits 10 n) = false
  unfold Nat.toDigits
  rcases toDigitsCore_shape 10 (n + 1) n [] with h | ⟨k, rest, h⟩
  · rw [h]; rfl
  · rw [h]
    exact dots_isPrefixOf_cons_false rest (digitChar_ne_dot k)

theorem isPlaceholder_vDate (d : Nat) : isPlaceholder (.vDate d) = false := by
  show "...".data.isPrefixOf (dateStr d).data = false
  unfold dateStr
  rw [String.data_append]
  exact dots_isPrefixOf_cons_false _ (by decide)

theorem isPlaceholder_vNum (q : Rat) : isPlaceholder (.vNum q) = false := by
  show "...".data.isPrefixOf (ratStr q).data = false
  unfold ratStr
  by_cases hq : q.num < 0
  · rw [if_pos hq, String.data_append, String.data_append, String.data_append]
    exact dots_isPrefixOf_cons_false _ (by decide)
  · rw [if_neg hq, String.data_append, String.data_append, String.data_append]
    show "...".data.isPrefixOf ([] ++ (Nat.repr q.num.natAbs).data ++ "/".data ++
      (Nat.repr q.den).data) = false
    rw [List.nil_append]
    show "...".data.isPrefixOf ((Nat.toDigits 10 q.num.natAbs) ++ "/".data ++
      (Nat.repr q.den).data) = false
    unfold Nat.toDigits
    rcases toDigitsCore_shape 10 (q.num.natAbs + 1) q.num.natAbs [] with h | ⟨k, rest, h⟩
    · rw [h, List.nil_append]
      exact dots_isPrefixOf_cons_false _ (by decide)
    · rw [h]
      exact dots_isPrefixOf_cons_false _ (digitChar_ne_dot k)

theorem isPlaceholder_vNaN : isPlaceholder .vNaN = false := by decide

theorem isPlaceholder_vList (xs : List String) : isPlaceholder (.vList xs) = false := by
  show "...".data.isPrefixOf (listStr xs).data = false
  unfold listStr
  rw [String.data_append, String.data_append]
  exact dots_isPrefixOf_cons_false _ (by decide)

theorem isPlaceholder_to_datetime (tsP : Val → Option Nat) (v : Val) :
    isPlaceholder (to_datetime tsP v) = false := by
  unfold to_datetime
  cases tsP v
  · exact isPlaceholder_vNaN
  · exact isPlaceholder_vDate _

theorem isPlaceholder_to_numeric (numP : Val → Option Rat) (v : Val) :
    isPlaceholder (to_numeric numP v) = false := by
  unfold to_numeric
  cases numP v
  · exact isPlaceholder_vNaN
  · exact isPlaceholder_vNum _

theorem headD_eq_getD (r : List Val) (d : Val) : r.headD d = r.getD 0 d := by
  cases r <;> rfl

theorem map_id_of_fix {α : Type} {l : List α} {f : α → α} (h : ∀ a ∈ l, f a = a) :
    l.map f = l := by
  rw [List.map_congr_left h]
  exact List.map_id l

theorem charToLower_idem (c : Char) : c.toLower.toLower = c.toLower := by
  unfold Char.toLower
  by_cases h : c.toNat ≥ 65 ∧ c.toNat ≤ 90
  · rw [if_pos h]
    have hv : (c.toNat + 32).isValidChar := Or.inl (by omega)
    have ht : (Char.ofNat (c.toNat + 32)).toNat = c.toNat + 32 := by
      rw [Char.ofNat, dif_pos hv]; rfl
    rw [if_neg (by omega)]
  · rw [if_neg h, if_neg h]

theorem dropWhile_rdropWhile_self (p : Char → Bool) (l : List Char) :
    (List.rdropWhile p (l.dropWhile p)).dropWhile p = List.rdropWhile p (l.dropWhile p) := by
  rw [List.dropWhile_eq_self_iff]
  intro hl
  obtain ⟨tl, htl⟩ := List.rdropWhile_prefix p (l.dropWhile p)
  have hly : 0 < (l.dropWhile p).length := by
    rw [← htl, List.length_append]
    omega
  have h0 : (List.rdropWhile p (l.dropWhile p))[0]? = (l.dropWhile p)[0]? := by
    conv_rhs => rw [← htl]
    exact (List.getElem?_append_left hl).symm
  rw [List.getElem?_eq_getElem hl, List.getElem?_eq_getElem hly] at h0
  injection h0 with h0
  have hget : (List.rdropWhile p (l.dropWhile p)).get ⟨0, hl⟩ =
      (l.dropWhile p).get ⟨0, hly⟩ := h0
  rw [hget]
  exact List.dropWhile_get_zero_not p l hly

theorem pyStrip_idem (s : String) : pyStrip (pyStrip s) = pyStrip s := by
  unfold pyStrip
  apply congrArg
  show List.rdropWhile _ ((List.rdropWhile _ (s.data.dropWhile _)).dropWhile _) = _
  rw [dropWhile_rdropWhile_self, List.rdropWhile_idempotent]

theorem mem_of_strip {c : Char} {l : List Char}
    (h : c ∈ List.rdropWhile Char.isWhitespace (l.dropWhile Char.isWhitespace)) : c ∈ l := by
  have h1 : c ∈ l.dropWhile Char.isWhitespace :=
    (List.rdropWhile_prefix _ _).sublist.subset h
  exact (List.dropWhile_sublist _).subset h1

theorem pyLower_pyStrip_pyLower (s : String) :
    pyLower (pyStrip (pyLower s)) = pyStrip (pyLower s) := by
  unfold pyLower pyStrip
  apply congrArg
  show (List.rdropWhile _ ((s.data.map Char.toLower).dropWhile _)).map Char.toLower = _
  apply map_id_of_fix
  intro c hc
  have hmem : c ∈ s.data.map Char.toLower := mem_of_strip hc
  obtain ⟨c0, _, hc0⟩ := List.mem_map.mp hmem
  rw [← hc0]
  exact charToLower_idem c0

theorem to_datetime_stable (tsP : Val → Option Nat)
    (hts1 : ∀ d, tsP (.vDate d) = some d) (hts2 : tsP .vNaN = none) (v : Val) :
    to_datetime tsP (to_datetime tsP v) = to_datetime tsP v := by
  unfold to_datetime
  cases tsP v with
  | none => rw [hts2]
  | some d => rw [hts1]

theorem to_numeric_stable (numP : Val → Option Rat)
    (hnp1 : ∀ q, numP (.vNum q) = some q) (hnp2 : numP .vNaN = none) (v : Val) :
    to_numeric numP (to_numeric numP v) = to_numeric numP v := by
  unfold to_numeric
  cases numP v with
  | none => rw [hnp2]
  | some q => rw [hnp1]

theorem strip_text_stable (v : Val) : strip_text (strip_text v) = strip_text v := by
  show Val.vStr (pyStrip (pyStrip (valStr v))) = _
  rw [pyStrip_idem]
  rfl

theorem lower_strip_stable (v : Val) : lower_strip (lower_strip v) = lower_strip v := by
  cases v with
  | vStr s =>
    show Val.vStr (pyStrip (pyLower (pyStrip (pyLower s)))) = _
    rw [pyLower_pyStrip_pyLower, pyStrip_idem]
    rfl
  | vNum q => rfl
  | vDate d => rfl
  | vNaN => rfl
  | vList xs => rfl

theorem keepRow_to_datetime (tsP : Val → Option Nat) (v : Val) :
    isPlaceholder (to_datetime tsP v) = false := isPlaceholder_to_datetime tsP v

theorem findIdx?_append_some {p : String → Bool} {l1 : List String} (l2 : List String)
    {i : Nat} (h : l1.findIdx? p = some i) : (l1 ++ l2).findIdx? p = some i := by
  induction l1 generalizing i with
  | nil => simp at h
  | cons a as ih =>
    rw [List.findIdx?_cons] at h
    rw [List.cons_append, List.findIdx?_cons]
    by_cases hp : p a
    · rw [if_pos hp] at h ⊢
      exact h
    · rw [if_neg hp] at h ⊢
      rw [List.findIdx?_succ] at h ⊢
      rw [Option.map_eq_some'] at h ⊢
      obtain ⟨j, hj, hij⟩ := h
      exact ⟨j, ih hj, hij⟩

theorem findIdx?_append_singleton {p : String → Bool} {l1 : List String} {x : String}
    (h : l1.findIdx? p = none) (hx : p x = true) :
    (l1 ++ [x]).findIdx? p = some l1.length := by
  induction l1 with
  | nil => simp [List.findIdx?_cons, hx]
  | cons a as ih =>
    rw [List.findIdx?_eq_none_iff] at h
    have ha : p a = false := h a (by simp)
    have has : as.findIdx? p = none := by
      rw [List.findIdx?_eq_none_iff]
      intro y hy
      exact h y (by simp [hy])
    rw [List.cons_append, List.findIdx?_cons, if_neg (by simp [ha]), List.findIdx?_succ,
      ih has]
    rfl

/-- The per-row action of one optional column step, with the column position
precomputed. -/
def optSet (i? : Option Nat) (f : Val → Val) (r : List Val) : List Val :=
  match i? with
  | none => r
  | some i => r.set i (f (r.getD i .vNaN))

theorem colIdx?_congr {t1 t2 : Table} (c : String) (h : t1.cols = t2.cols) :
    colIdx? t1 c = colIdx? t2 c := by
  unfold colIdx?
  rw [h]

theorem coerceOpt_rows_optSet (T : Table) (c : String) (f : Val → Val) :
    (coerceOpt T c f).rows = T.rows.map (optSet (colIdx? T c) f) := by
  unfold coerceOpt optSet
  cases colIdx? T c
  · exact (map_id_of_fix (fun r _ => rfl)).symm
  · rfl

theorem optSet_length (i? : Option Nat) (f : Val → Val) (r : List Val) :
    (optSet i? f r).length = r.length := by
  unfold optSet
  cases i? <;> simp

theorem optSet_getD_ne (i? : Option Nat) (f : Val → Val) (r : List Val) {j : Nat} (d : Val)
    (h : ∀ i, i? = some i → i ≠ j) : (optSet i? f r).getD j d = r.getD j d := by
  unfold optSet
  cases hi : i? with
  | none => rfl
  | some i => exact getD_set_ne _ _ (h i hi)

theorem optSet_fix (i? : Option Nat) (f : Val → Val) (r : List Val)
    (h : ∀ i, i? = some i → f (r.getD i .vNaN) = r.getD i .vNaN) :
    optSet i? f r = r := by
  unfold optSet
  cases hi : i? with
  | none => rfl
  | some i =>
    show r.set i (f (r.getD i .vNaN)) = r
    rw [h i hi]
    exact set_getD_self _

theorem optSet_getD_self (i? : Option Nat) (f : Val → Val) (r : List Val) {i : Nat}
    (hi : i? = some i) (hlt : i < r.length) :
    (optSet i? f r).getD i .vNaN = f (r.getD i .vNaN) := by
  unfold optSet
  rw [hi]
  exact getD_set_self _ _ hlt

theorem clean_trades_idem (tsP : Val → Option Nat) (numP : Val → Option Rat)
    (hts1 : ∀ d, tsP (.vDate d) = some d) (hts2 : tsP .vNaN = none)
    (hnp1 : ∀ q, numP (.vNum q) = some q) (hnp2 : numP .vNaN = none)
    (t u : Table) (hwf : WF t)
    (ht : "timestamp" ∈ t.cols) (hp : "price" ∈ t.cols) (hv : "volume" ∈ t.cols)
    (hok : clean_trades tsP numP t = .ok u) :
    clean_trades tsP numP u = .ok u := by
  obtain ⟨i1, h1⟩ := colIdx?_isSome_of_mem ht
  obtain ⟨i2, h2⟩ := colIdx?_isSome_of_mem hp
  obtain ⟨i3, h3⟩ := colIdx?_isSome_of_mem hv
  have d12 : i1 ≠ i2 := colIdx?_ne (by decide) h1 h2
  have d13 : i1 ≠ i3 := colIdx?_ne (by decide) h1 h3
  have d23 : i2 ≠ i3 := colIdx?_ne (by decide) h2 h3
  rw [clean_trades_eq tsP numP t h1 h2 h3] at hok
  injection hok with hok
  set F1 : List Val → List Val :=
    fun r => r.set i1 (to_datetime tsP (r.getD i1 .vNaN)) with hF1
  set F2 : List Val → List Val :=
    fun r => r.set i2 (to_numeric numP (r.getD i2 .vNaN)) with hF2
  set F3 : List Val → List Val :=
    fun r => r.set i3 (to_numeric numP (r.getD i3 .vNaN)) with hF3
  -- cell values of a once-cleaned row
  have cells : ∀ r : List Val, r.length = t.cols.length →
      (F3 (F2 (F1 r))).getD i1 .vNaN = to_datetime tsP (r.getD i1 .vNaN) ∧
      (F3 (F2 (F1 r))).getD i2 .vNaN = to_numeric numP (r.getD i2 .vNaN) ∧
      (F3 (F2 (F1 r))).getD i3 .vNaN = to_numeric numP (r.getD i3 .vNaN) ∧
      ∀ j, j ≠ i1 → j ≠ i2 → j ≠ i3 →
        (F3 (F2 (F1 r))).getD j .vNaN = r.getD j .vNaN := by
    intro r hlen
    have hi1 : i1 < r.length := hlen ▸ (colIdx?_some_facts h1).1
    have e2 : (F1 r).getD i2 .vNaN = r.getD i2 .vNaN := getD_set_ne _ _ d12
    have e3 : (F2 (F1 r)).getD i3 .vNaN = r.getD i3 .vNaN := by
      show ((F1 r).set i2 _).getD i3 .vNaN = _
      rw [getD_set_ne _ _ d23]
      exact getD_set_ne _ _ d13
    refine ⟨?_, ?_, ?_, ?_⟩
    · show (((F1 r).set i2 _).set i3 _).getD i1 .vNaN = _
      rw [getD_set_ne _ _ (Ne.symm d13), getD_set_ne _ _ (Ne.symm d12)]
      show ((r.set i1 _).getD i1 .vNaN) = _
      exact getD_set_self _ _ hi1
    · show (((F1 r).set i2 _).set i3 _).getD i2 .vNaN = _
      rw [getD_set_ne _ _ (Ne.symm d23), e2]
      rw [getD_set_self _ _ (by simpa [hF1] using (hlen ▸ (colIdx?_some_facts h2).1))]
    · show (((F1 r).set i2 _).set i3 _).getD i3 .vNaN = _
      rw [e3]
      rw [getD_set_self _ _ (by simpa [hF1, hF2] using (hlen ▸ (colIdx?_some_facts h3).1))]
    · intro j hj1 hj2 hj3
      show (((F1 r).set i2 _).set i3 _).getD j .vNaN = _
      rw [getD_set_ne _ _ (Ne.symm hj3), getD_set_ne _ _ (Ne.symm hj2)]
      exact getD_set_ne _ _ (Ne.symm hj1)
  -- kept rows of u carry no placeholder prefix
  have hkeep : ∀ s ∈ u.rows, keepRow s = true := by
    intro s hs
    rw [← hok] at hs
    simp only [List.map_map] at hs
    obtain ⟨r, hr, hrs⟩ := List.mem_map.mp hs
    have hkr : keepRow r = true := (List.mem_filter.mp hr).2
    have hlen : r.length = t.cols.length := hwf r (List.mem_of_mem_filter hr)
    obtain ⟨c1, c2, c3, cother⟩ := cells r hlen
    simp only [Function.comp_apply] at hrs
    subst hrs
    rw [keepRow, headD_eq_getD]
    by_cases h01 : (0 : Nat) = i1
    · rw [← h01] at c1
      rw [c1, isPlaceholder_to_datetime]
      rfl
    · by_cases h02 : (0 : Nat) = i2
      · rw [← h02] at c2
        rw [c2, isPlaceholder_to_numeric]
        rfl
      · by_cases h03 : (0 : Nat) = i3
        · rw [← h03] at c3
          rw [c3, isPlaceholder_to_numeric]
          rfl
        · rw [cother 0 h01 h02 h03]
          rw [keepRow, headD_eq_getD] at hkr
          exact hkr
  -- re-cleaning fixes every row of u
  have hfix : ∀ s ∈ u.rows, F3 (F2 (F1 s)) = s := by
    intro s hs
    rw [← hok] at hs
    simp only [List.map_map] at hs
    obtain ⟨r, hr, hrs⟩ := List.mem_map.mp hs
    have hlen : r.length = t.cols.length := hwf r (List.mem_of_mem_filter hr)
    obtain ⟨c1, c2, c3, _⟩ := cells r hlen
    simp only [Function.comp_apply] at hrs
    subst hrs
    set s := F3 (F2 (F1 r)) with hsdef
    have f1 : F1 s = s := by
      show s.set i1 (to_datetime tsP (s.getD i1 .vNaN)) = s
      rw [c1, to_datetime_stable tsP hts1 hts2, ← c1]
      exact set_getD_self _
    have f2 : F2 s = s := by
      show s.set i2 (to_numeric numP (s.getD i2 .vNaN)) = s
      rw [c2, to_numeric_stable numP hnp1 hnp2, ← c2]
      exact set_getD_self _
    have f3 : F3 s = s := by
      show s.set i3 (to_numeric numP (s.getD i3 .vNaN)) = s
      rw [c3, to_numeric_stable numP hnp1 hnp2, ← c3]
      exact set_getD_self _
    rw [f1, f2, f3]
  have hcolsu : u.cols = t.cols := by rw [← hok]
  have h1u : colIdx? u "timestamp" = some i1 := by
    rw [colIdx?_congr _ (show u.cols = t.cols from hcolsu)]
    exact h1
  have h2u : colIdx? u "price" = some i2 := by
    rw [colIdx?_congr _ hcolsu]
    exact h2
  have h3u : colIdx? u "volume" = some i3 := by
    rw [colIdx?_congr _ hcolsu]
    exact h3
  rw [clean_trades_eq tsP numP u h1u h2u h3u]
  have hfilter : u.rows.filter keepRow = u.rows := List.filter_eq_self.mpr hkeep
  have hrows : ((u.rows.map F1).map F2).map F3 = u.rows := by
    simp only [List.map_map]
    exact map_id_of_fix hfix
  rw [hfilter, hrows]

theorem clean_sentiment_idem (tsP : Val → Option Nat) (numP : Val → Option Rat)
    (hts1 : ∀ d, tsP (.vDate d) = some d) (hts2 : tsP .vNaN = none)
    (hnp1 : ∀ q, numP (.vNum q) = some q) (hnp2 : numP .vNaN = none)
    (t u : Table) (hwf : WF t)
    (ht : "timestamp" ∈ t.cols) (hc : "confidence_score" ∈ t.cols)
    (hok : clean_sentiment_labels tsP numP t = .ok u)
    (hplc : ∀ s ∈ u.rows, keepRow s = true) :
    clean_sentiment_labels tsP numP u = .ok u := by
  obtain ⟨i1, h1⟩ := colIdx?_isSome_of_mem ht
  obtain ⟨i2, h2⟩ := colIdx?_isSome_of_mem hc
  have d12 : i1 ≠ i2 := colIdx?_ne (by decide) h1 h2
  rw [clean_sentiment_eq tsP numP t h1 h2] at hok
  injection hok with hok
  set F1 : List Val → List Val :=
    fun r => r.set i1 (to_datetime tsP (r.getD i1 .vNaN)) with hF1
  set F2 : List Val → List Val :=
    fun r => r.set i2 (to_numeric numP (r.getD i2 .vNaN)) with hF2
  set T2 : Table := ⟨t.cols, ((t.rows.filter keepRow).map F1).map F2⟩ with hT2
  have hT2cols : T2.cols = t.cols := rfl
  set o := colIdx? t "sentiment_label" with ho
  have hoT2 : colIdx? T2 "sentiment_label" = o := rfl
  have hurows : u.rows = T2.rows.map (optSet o lower_strip) := by
    rw [← hok, coerceOpt_rows_optSet, hoT2]
  have hucols : u.cols = t.cols := by
    rw [← hok, cols_coerceOpt, hT2cols]
  -- cell facts about a once-cleaned row of u
  have cells : ∀ r : List Val, r.length = t.cols.length →
      (optSet o lower_strip (F2 (F1 r))).getD i1 .vNaN =
        to_datetime tsP (r.getD i1 .vNaN) ∧
      (optSet o lower_strip (F2 (F1 r))).getD i2 .vNaN =
        to_numeric numP (r.getD i2 .vNaN) ∧
      (∀ i4, o = some i4 → (optSet o lower_strip (F2 (F1 r))).getD i4 .vNaN =
        lower_strip ((F2 (F1 r)).getD i4 .vNaN)) := by
    intro r hlen
    have hi1 : i1 < r.length := hlen ▸ (colIdx?_some_facts h1).1
    have hi2 : i2 < r.length := hlen ▸ (colIdx?_some_facts h2).1
    refine ⟨?_, ?_, ?_⟩
    · rw [optSet_getD_ne _ _ _ _ (fun i4 hi4 => colIdx?_ne (by decide) (ho.symm.trans hi4) h1)]
      show ((F1 r).set i2 _).getD i1 .vNaN = _
      rw [getD_set_ne _ _ (Ne.symm d12)]
      exact getD_set_self _ _ hi1
    · rw [optSet_getD_ne _ _ _ _ (fun i4 hi4 => colIdx?_ne (by decide) (ho.symm.trans hi4) h2)]
      show ((F1 r).set i2 _).getD i2 .vNaN = _
      rw [getD_set_ne _ _ d12]
      exact getD_set_self _ _ (by simpa [hF1] using hi2)
    · intro i4 hi4
      have hb4 : i4 < t.cols.length := (colIdx?_some_facts (ho.symm.trans hi4)).1
      apply optSet_getD_self _ _ _ hi4
      simp [hF1, hF2]
      omega
  refine ?_
  have h1u : colIdx? u "timestamp" = some i1 := by
    rw [colIdx?_congr _ hucols]; exact h1
  have h2u : colIdx? u "confidence_score" = some i2 := by
    rw [colIdx?_congr _ hucols]; exact h2
  rw [clean_sentiment_eq tsP numP u h1u h2u]
  have hfilter : u.rows.filter keepRow = u.rows := List.filter_eq_self.mpr hplc
  -- F1 and F2 fix every row of u
  have hfix12 : ∀ s ∈ u.rows, F2 (F1 s) = s := by
    intro s hs
    rw [hurows] at hs
    obtain ⟨r2, hr2, hrs⟩ := List.mem_map.mp hs
    have hr2' : r2 ∈ ((t.rows.filter keepRow).map F1).map F2 := hr2
    rw [List.map_map] at hr2'
    obtain ⟨r, hr, hrr⟩ := List.mem_map.mp hr2'
    have hlen : r.length = t.cols.length := hwf r (List.mem_of_mem_filter hr)
    obtain ⟨c1, c2, _⟩ := cells r hlen
    have hr2eq : r2 = F2 (F1 r) := hrr.symm
    rw [hr2eq] at hrs
    subst hrs
    set s := optSet o lower_strip (F2 (F1 r)) with hs'
    have f1 : F1 s = s := by
      show s.set i1 (to_datetime tsP (s.getD i1 .vNaN)) = s
      rw [c1, to_datetime_stable tsP hts1 hts2, ← c1]
      exact set_getD_self _
    have f2 : F2 s = s := by
      show s.set i2 (to_numeric numP (s.getD i2 .vNaN)) = s
      rw [c2, to_numeric_stable numP hnp1 hnp2, ← c2]
      exact set_getD_self _
    rw [f1, f2]
  have hrows12 : ((u.rows.filter keepRow).map F1).map F2 = u.rows := by
    rw [hfilter]
    simp only [List.map_map]
    exact map_id_of_fix hfix12
  -- the optional sentiment_label step also fixes every row of u
  have hfixopt : ∀ s ∈ u.rows, optSet o lower_strip s = s := by
    intro s hs
    rw [hurows] at hs
    obtain ⟨r2, hr2, hrs⟩ := List.mem_map.mp hs
    have hr2' : r2 ∈ ((t.rows.filter keepRow).map F1).map F2 := hr2
    rw [List.map_map] at hr2'
    obtain ⟨r, hr, hrr⟩ := List.mem_map.mp hr2'
    have hlen : r.length = t.cols.length := hwf r (List.mem_of_mem_filter hr)
    obtain ⟨_, _, c4⟩ := cells r hlen
    have hr2eq : r2 = F2 (F1 r) := hrr.symm
    rw [hr2eq] at hrs
    subst hrs
    apply optSet_fix
    intro i4 hi4
    rw [c4 i4 hi4, lower_strip_stable, ← c4 i4 hi4]
  -- assemble: the second pass returns u unchanged
  have hinner : (⟨u.cols, ((u.rows.filter keepRow).map F1).map F2⟩ : Table) = u := by
    rw [hrows12]
  rw [hinner]
  show Except.ok (coerceOpt u "sentiment_label" lower_strip) = Except.ok u
  have hou : colIdx? u "sentiment_label" = o := by
    rw [colIdx?_congr _ hucols]
  unfold coerceOpt
  rw [hou]
  cases hoval : o with
  | none => rfl
  | some i4 =>
    show Except.ok (mapColAt u i4 lower_strip) = Except.ok u
    unfold mapColAt
    have : u.rows.map (fun r => r.set i4 (lower_strip (r.getD i4 .vNaN))) = u.rows := by
      apply map_id_of_fix
      intro s hs
      have := hfixopt s hs
      rw [hoval] at this
      exact this
    rw [this]

theorem coerceOpt_fix (T : Table) (c : String) (f : Val → Val)
    (h : ∀ s ∈ T.rows, optSet (colIdx? T c) f s = s) :
    coerceOpt T c f = T := by
  unfold coerceOpt
  cases hc : colIdx? T c with
  | none => rfl
  | some i =>
    show mapColAt T i f = T
    unfold mapColAt
    have : T.rows.map (fun r => r.set i (f (r.getD i .vNaN))) = T.rows := by
      apply map_id_of_fix
      intro s hs
      have := h s hs
      rw [hc] at this
      exact this
    rw [this]

theorem findIdx?_append_none {p : String → Bool} {l1 : List String} {x : String}
    (h : l1.findIdx? p = none) (hx : p x = false) :
    (l1 ++ [x]).findIdx? p = none := by
  rw [List.findIdx?_eq_none_iff] at h ⊢
  intro y hy
  rcases List.mem_append.mp hy with hy | hy
  · exact h y hy
  · rw [List.mem_singleton.mp hy]
    exact hx

theorem setCol_self (T : Table) (c : String) {m : Nat} (hm : colIdx? T c = some m)
    (f : List Val → Val) (hfix : ∀ s ∈ T.rows, s.set m (f s) = s) :
    setCol T c (T.rows.map f) = T := by
  unfold setCol
  rw [hm]
  show (⟨T.cols, List.zipWith (fun r v => r.set m v) T.rows (T.rows.map f)⟩ : Table) = T
  rw [List.zipWith_map_right, List.zipWith_same, map_id_of_fix hfix]

theorem clean_news_fix (tsP : Val → Option Nat) (u : Table) {i1 : Nat}
    (h1u : colIdx? u "timestamp" = some i1)
    (hplc : ∀ s ∈ u.rows, keepRow s = true)
    (hfix1 : ∀ s ∈ u.rows, s.set i1 (to_datetime tsP (s.getD i1 .vNaN)) = s)
    (hfixh : ∀ s ∈ u.rows, optSet (colIdx? u "headline") strip_text s = s)
    (hfixsm : ∀ s ∈ u.rows, optSet (colIdx? u "summary") strip_text s = s)
    (hfixsr : ∀ s ∈ u.rows, optSet (colIdx? u "source") strip_text s = s)
    (hfixct : ∀ s ∈ u.rows, optSet (colIdx? u "category") strip_text s = s)
    (hder : deriveSymbols u = u) :
    clean_news tsP u = .ok u := by
  rw [clean_news_eq tsP u h1u]
  have hfl : u.rows.filter keepRow = u.rows := List.filter_eq_self.mpr hplc
  have hmapF1 : u.rows.map
      (fun r => r.set i1 (to_datetime tsP (r.getD i1 .vNaN))) = u.rows :=
    map_id_of_fix hfix1
  have hinner : (⟨u.cols, (u.rows.filter keepRow).map
      (fun r => r.set i1 (to_datetime tsP (r.getD i1 .vNaN)))⟩ : Table) = u := by
    rw [hfl, hmapF1]
  rw [hinner, coerceOpt_fix u "headline" strip_text hfixh]
  rw [coerceOpt_fix u "summary" strip_text hfixsm]
  rw [coerceOpt_fix u "source" strip_text hfixsr]
  rw [coerceOpt_fix u "category" strip_text hfixct]
  rw [hder]

theorem set_concat_self (l : List Val) (v : Val) :
    (l ++ [v]).set l.length v = l ++ [v] := by
  have h := @set_getD_self (l ++ [v]) l.length Val.vNaN
  rw [getD_concat_length] at h
  exact h

theorem clean_news_idem (tsP : Val → Option Nat)
    (hts1 : ∀ d, tsP (.vDate d) = some d) (hts2 : tsP .vNaN = none)
    (t u : Table) (hwf : WF t) (ht : "timestamp" ∈ t.cols)
    (hok : clean_news tsP t = .ok u)
    (hplc : ∀ s ∈ u.rows, keepRow s = true) :
    clean_news tsP u = .ok u := by
  obtain ⟨i1, h1⟩ := colIdx?_isSome_of_mem ht
  rw [clean_news_eq tsP t h1] at hok
  injection hok with hok
  set F1 : List Val → List Val :=
    fun r => r.set i1 (to_datetime tsP (r.getD i1 .vNaN)) with hF1
  set T1 : Table := ⟨t.cols, (t.rows.filter keepRow).map F1⟩ with hT1
  set o1 := colIdx? t "headline" with ho1
  set o2 := colIdx? t "summary" with ho2
  set o3 := colIdx? t "source" with ho3
  set o4 := colIdx? t "category" with ho4
  set T2 := coerceOpt T1 "headline" strip_text with hT2
  set T3 := coerceOpt T2 "summary" strip_text with hT3
  set T4 := coerceOpt T3 "source" strip_text with hT4
  set T5 := coerceOpt T4 "category" strip_text with hT5
  have hc1T : T1.cols = t.cols := rfl
  have hc2 : T2.cols = t.cols := (cols_coerceOpt _ _ _).trans hc1T
  have hc3 : T3.cols = t.cols := (cols_coerceOpt _ _ _).trans hc2
  have hc4 : T4.cols = t.cols := (cols_coerceOpt _ _ _).trans hc3
  have hc5 : T5.cols = t.cols := (cols_coerceOpt _ _ _).trans hc4
  have e1 : colIdx? T1 "headline" = o1 := (colIdx?_congr _ hc1T).trans ho1.symm
  have e2 : colIdx? T2 "summary" = o2 := (colIdx?_congr _ hc2).trans ho2.symm
  have e3 : colIdx? T3 "source" = o3 := (colIdx?_congr _ hc3).trans ho3.symm
  have e4 : colIdx? T4 "category" = o4 := (colIdx?_congr _ hc4).trans ho4.symm
  set G : List Val → List Val := fun r =>
    optSet o4 strip_text (optSet o3 strip_text (optSet o2 strip_text
      (optSet o1 strip_text (F1 r)))) with hG
  have hT5rows : T5.rows = (t.rows.filter keepRow).map G := by
    rw [hT5, coerceOpt_rows_optSet, e4, hT4, coerceOpt_rows_optSet, e3,
      hT3, coerceOpt_rows_optSet, e2, hT2, coerceOpt_rows_optSet, e1]
    show ((((((t.rows.filter keepRow).map F1).map (optSet o1 strip_text)).map
      (optSet o2 strip_text)).map (optSet o3 strip_text)).map (optSet o4 strip_text)) = _
    simp only [List.map_map]
    rfl
  have hlenG : ∀ r : List Val, (G r).length = r.length := by
    intro r
    show (optSet o4 _ (optSet o3 _ (optSet o2 _ (optSet o1 _ (F1 r))))).length = _
    rw [optSet_length, optSet_length, optSet_length, optSet_length]
    simp [hF1]
  have hcell1 : ∀ r : List Val, r.length = t.cols.length →
      (G r).getD i1 .vNaN = to_datetime tsP (r.getD i1 .vNaN) := by
    intro r hlen
    have hi1 : i1 < r.length := hlen ▸ (colIdx?_some_facts h1).1
    show (optSet o4 _ (optSet o3 _ (optSet o2 _ (optSet o1 _ (F1 r))))).getD i1 _ = _
    rw [optSet_getD_ne _ _ _ _ (fun i hi => colIdx?_ne (by decide) (ho4.symm.trans hi) h1),
      optSet_getD_ne _ _ _ _ (fun i hi => colIdx?_ne (by decide) (ho3.symm.trans hi) h1),
      optSet_getD_ne _ _ _ _ (fun i hi => colIdx?_ne (by decide) (ho2.symm.trans hi) h1),
      optSet_getD_ne _ _ _ _ (fun i hi => colIdx?_ne (by decide) (ho1.symm.trans hi) h1)]
    exact getD_set_self _ _ hi1
  have hstripimg : ∀ r : List Val, r.length = t.cols.length → ∀ i : Nat,
      (o1 = some i ∨ o2 = some i ∨ o3 = some i ∨ o4 = some i) →
      ∃ w, (G r).getD i .vNaN = strip_text w := by
    intro r hlen i hi
    show ∃ w, (optSet o4 _ (optSet o3 _ (optSet o2 _ (optSet o1 _ (F1 r))))).getD i _ =
      strip_text w
    rcases hi with hi | hi | hi | hi
    · have hb : i < t.cols.length := (colIdx?_some_facts (ho1.symm.trans hi)).1
      rw [optSet_getD_ne _ _ _ _ (fun k hk =>
          colIdx?_ne (by decide) (ho4.symm.trans hk) (ho1.symm.trans hi)),
        optSet_getD_ne _ _ _ _ (fun k hk =>
          colIdx?_ne (by decide) (ho3.symm.trans hk) (ho1.symm.trans hi)),
        optSet_getD_ne _ _ _ _ (fun k hk =>
          colIdx?_ne (by decide) (ho2.symm.trans hk) (ho1.symm.trans hi))]
      refine ⟨(F1 r).getD i .vNaN, optSet_getD_self _ _ _ hi ?_⟩
      simp [hF1]
      omega
    · have hb : i < t.cols.length := (colIdx?_some_facts (ho2.symm.trans hi)).1
      rw [optSet_getD_ne _ _ _ _ (fun k hk =>
          colIdx?_ne (by decide) (ho4.symm.trans hk) (ho2.symm.trans hi)),
        optSet_getD_ne _ _ _ _ (fun k hk =>
          colIdx?_ne (by decide) (ho3.symm.trans hk) (ho2.symm.trans hi))]
      refine ⟨_, optSet_getD_self _ _ _ hi ?_⟩
      rw [optSet_length]
      simp [hF1]
      omega
    · have hb : i < t.cols.length := (colIdx?_some_facts (ho3.symm.trans hi)).1
      rw [optSet_getD_ne _ _ _ _ (fun k hk =>
          colIdx?_ne (by decide) (ho4.symm.trans hk) (ho3.symm.trans hi))]
      refine ⟨_, optSet_getD_self _ _ _ hi ?_⟩
      rw [optSet_length, optSet_length]
      simp [hF1]
      omega
    · have hb : i < t.cols.length := (colIdx?_some_facts (ho4.symm.trans hi)).1
      refine ⟨_, optSet_getD_self _ _ _ hi ?_⟩
      rw [optSet_length, optSet_length, optSet_length]
      simp [hF1]
      omega
  have hkeepmem : ∀ r, r ∈ t.rows.filter keepRow → r.length = t.cols.length :=
    fun r hr => hwf r (List.mem_of_mem_filter hr)
  cases hor : colIdx? t "related_symbols" with
  | none =>
    have horT5 : colIdx? T5 "related_symbols" = none := (colIdx?_congr _ hc5).trans hor
    have hu : T5 = u := by
      rw [← hok]
      unfold deriveSymbols
      rw [horT5]
    have hucols : u.cols = t.cols := by rw [← hu]; exact hc5
    have hurows : u.rows = (t.rows.filter keepRow).map G := by rw [← hu]; exact hT5rows
    have hmem : ∀ s ∈ u.rows, ∃ r, r ∈ t.rows.filter keepRow ∧ G r = s ∧
        r.length = t.cols.length := by
      intro s hs
      rw [hurows] at hs
      obtain ⟨r, hr, hrs⟩ := List.mem_map.mp hs
      exact ⟨r, hr, hrs, hkeepmem r hr⟩
    refine clean_news_fix tsP u ((colIdx?_congr _ hucols).trans h1) hplc ?_ ?_ ?_ ?_ ?_ ?_
    · intro s hs
      obtain ⟨r, hr, hrs, hlen⟩ := hmem s hs
      subst hrs
      rw [hcell1 r hlen, to_datetime_stable tsP hts1 hts2, ← hcell1 r hlen]
      exact set_getD_self _
    · intro s hs
      obtain ⟨r, hr, hrs, hlen⟩ := hmem s hs
      subst hrs
      apply optSet_fix
      intro i hi
      have hieq : colIdx? u "headline" = o1 := (colIdx?_congr _ hucols).trans ho1.symm
      obtain ⟨w, hw⟩ := hstripimg r hlen i (Or.inl (hieq.symm.trans hi))
      rw [hw, strip_text_stable]
    · intro s hs
      obtain ⟨r, hr, hrs, hlen⟩ := hmem s hs
      subst hrs
      apply optSet_fix
      intro i hi
      have hieq : colIdx? u "summary" = o2 := (colIdx?_congr _ hucols).trans ho2.symm
      obtain ⟨w, hw⟩ := hstripimg r hlen i (Or.inr (Or.inl (hieq.symm.trans hi)))
      rw [hw, strip_text_stable]
    · intro s hs
      obtain ⟨r, hr, hrs, hlen⟩ := hmem s hs
      subst hrs
      apply optSet_fix
      intro i hi
      have hieq : colIdx? u "source" = o3 := (colIdx?_congr _ hucols).trans ho3.symm
      obtain ⟨w, hw⟩ := hstripimg r hlen i (Or.inr (Or.inr (Or.inl (hieq.symm.trans hi))))
      rw [hw, strip_text_stable]
    · intro s hs
      obtain ⟨r, hr, hrs, hlen⟩ := hmem s hs
      subst hrs
      apply optSet_fix
      intro i hi
      have hieq : colIdx? u "category" = o4 := (colIdx?_congr _ hucols).trans ho4.symm
      obtain ⟨w, hw⟩ := hstripimg r hlen i (Or.inr (Or.inr (Or.inr (hieq.symm.trans hi))))
      rw [hw, strip_text_stable]
    · unfold deriveSymbols
      rw [(colIdx?_congr _ hucols).trans hor]
  | some j =>
    have horT5 : colIdx? T5 "related_symbols" = some j := (colIdx?_congr _ hc5).trans hor
    have hbj : j < t.cols.length := (colIdx?_some_facts hor).1
    have hu : setCol T5 "related_symbols_list"
        (T5.rows.map (fun r => split_related (r.getD j .vNaN))) = u := by
      rw [← hok]
      unfold deriveSymbols
      rw [horT5]
    cases hom : colIdx? t "related_symbols_list" with
    | none =>
      have homT5 : colIdx? T5 "related_symbols_list" = none := (colIdx?_congr _ hc5).trans hom
      set E : List Val → List Val :=
        fun r => G r ++ [split_related ((G r).getD j .vNaN)] with hE
      have hucols : u.cols = t.cols ++ ["related_symbols_list"] := by
        rw [← hu]
        unfold setCol
        rw [homT5]
        show T5.cols ++ _ = _
        rw [hc5]
      have hurows : u.rows = (t.rows.filter keepRow).map E := by
        rw [← hu]
        unfold setCol
        rw [homT5]
        show List.zipWith _ T5.rows (T5.rows.map _) = _
        rw [List.zipWith_map_right, List.zipWith_same, hT5rows, List.map_map]
        rfl
      have hmem : ∀ s ∈ u.rows, ∃ r, r ∈ t.rows.filter keepRow ∧ E r = s ∧
          r.length = t.cols.length := by
        intro s hs
        rw [hurows] at hs
        obtain ⟨r, hr, hrs⟩ := List.mem_map.mp hs
        exact ⟨r, hr, hrs, hkeepmem r hr⟩
      have hEcell : ∀ r : List Val, r.length = t.cols.length → ∀ i, i < t.cols.length →
          (E r).getD i .vNaN = (G r).getD i .vNaN := by
        intro r hlen i hilt
        show (G r ++ _).getD i .vNaN = _
        exact getD_append_left _ _ (by rw [hlenG, hlen]; exact hilt) _
      have hci : ∀ c : String, c ≠ "related_symbols_list" → colIdx? u c = colIdx? t c := by
        intro c hc
        show u.cols.findIdx? (fun x => x == c) = colIdx? t c
        rw [hucols]
        cases hct : colIdx? t c with
        | some i => exact findIdx?_append_some _ hct
        | none =>
          have hx : (("related_symbols_list" : String) == c) = false :=
            beq_eq_false_iff_ne.mpr (fun he => hc he.symm)
          exact findIdx?_append_none hct hx
      refine clean_news_fix tsP u ((hci "timestamp" (by decide)).trans h1) hplc ?_ ?_ ?_ ?_ ?_ ?_
      · intro s hs
        obtain ⟨r, hr, hrs, hlen⟩ := hmem s hs
        subst hrs
        have hb1 : i1 < t.cols.length := (colIdx?_some_facts h1).1
        rw [hEcell r hlen i1 hb1, hcell1 r hlen, to_datetime_stable tsP hts1 hts2,
          ← hcell1 r hlen, ← hEcell r hlen i1 hb1]
        exact set_getD_self _
      · intro s hs
        obtain ⟨r, hr, hrs, hlen⟩ := hmem s hs
        subst hrs
        apply optSet_fix
        intro i hi
        have hieq : o1 = some i := ((hci "headline" (by decide)).trans ho1.symm).symm.trans hi
        have hb : i < t.cols.length := (colIdx?_some_facts (ho1.symm.trans hieq)).1
        obtain ⟨w, hw⟩ := hstripimg r hlen i (Or.inl hieq)
        rw [hEcell r hlen i hb, hw, strip_text_stable]
      · intro s hs
        obtain ⟨r, hr, hrs, hlen⟩ := hmem s hs
        subst hrs
        apply optSet_fix
        intro i hi
        have hieq : o2 = some i := ((hci "summary" (by decide)).trans ho2.symm).symm.trans hi
        have hb : i < t.cols.length := (colIdx?_some_facts (ho2.symm.trans hieq)).1
        obtain ⟨w, hw⟩ := hstripimg r hlen i (Or.inr (Or.inl hieq))
        rw [hEcell r hlen i hb, hw, strip_text_stable]
      · intro s hs
        obtain ⟨r, hr, hrs, hlen⟩ := hmem s hs
        subst hrs
        apply optSet_fix
        intro i hi
        have hieq : o3 = some i := ((hci "source" (by decide)).trans ho3.symm).symm.trans hi
        have hb : i < t.cols.length := (colIdx?_some_facts (ho3.symm.trans hieq)).1
        obtain ⟨w, hw⟩ := hstripimg r hlen i (Or.inr (Or.inr (Or.inl hieq)))
        rw [hEcell r hlen i hb, hw, strip_text_stable]
      · intro s hs
        obtain ⟨r, hr, hrs, hlen⟩ := hmem s hs
        subst hrs
        apply optSet_fix
        intro i hi
        have hieq : o4 = some i := ((hci "category" (by decide)).trans ho4.symm).symm.trans hi
        have hb : i < t.cols.length := (colIdx?_some_facts (ho4.symm.trans hieq)).1
        obtain ⟨w, hw⟩ := hstripimg r hlen i (Or.inr (Or.inr (Or.inr hieq)))
        rw [hEcell r hlen i hb, hw, strip_text_stable]
      · unfold deriveSymbols
        rw [(hci "related_symbols" (by decide)).trans hor]
        have hrl : colIdx? u "related_symbols_list" = some t.cols.length := by
          show u.cols.findIdx? (fun x => x == "related_symbols_list") = _
          rw [hucols]
          exact findIdx?_append_singleton hom (by decide)
        refine setCol_self u "related_symbols_list" hrl _ ?_
        intro s hs
        obtain ⟨r, hr, hrs, hlen⟩ := hmem s hs
        subst hrs
        have hlenGr : (G r).length = t.cols.length := by rw [hlenG, hlen]
        have hjval : (E r).getD j .vNaN = (G r).getD j .vNaN := hEcell r hlen j hbj
        rw [hjval]
        show (G r ++ _).set t.cols.length _ = _
        rw [← hlenGr]
        exact set_concat_self _ _
    | some m =>
      have homT5 : colIdx? T5 "related_symbols_list" = some m := (colIdx?_congr _ hc5).trans hom
      have hbm : m < t.cols.length := (colIdx?_some_facts hom).1
      have hmj : m ≠ j := colIdx?_ne (by decide) hom hor
      set E : List Val → List Val :=
        fun r => (G r).set m (split_related ((G r).getD j .vNaN)) with hE
      have hucols : u.cols = t.cols := by
        rw [← hu]
        unfold setCol
        rw [homT5]
        exact hc5
      have hurows : u.rows = (t.rows.filter keepRow).map E := by
        rw [← hu]
        unfold setCol
        rw [homT5]
        show List.zipWith _ T5.rows (T5.rows.map _) = _
        rw [List.zipWith_map_right, List.zipWith_same, hT5rows, List.map_map]
        rfl
      have hmem : ∀ s ∈ u.rows, ∃ r, r ∈ t.rows.filter keepRow ∧ E r = s ∧
          r.length = t.cols.length := by
        intro s hs
        rw [hurows] at hs
        obtain ⟨r, hr, hrs⟩ := List.mem_map.mp hs
        exact ⟨r, hr, hrs, hkeepmem r hr⟩
      have hEcell : ∀ r : List Val, ∀ i, i ≠ m →
          (E r).getD i .vNaN = (G r).getD i .vNaN := by
        intro r i him
        show ((G r).set m _).getD i .vNaN = _
        exact getD_set_ne _ _ (fun he => him he.symm)
      have hci : ∀ c : String, colIdx? u c = colIdx? t c :=
        fun c => colIdx?_congr _ hucols
      refine clean_news_fix tsP u ((hci "timestamp").trans h1) hplc ?_ ?_ ?_ ?_ ?_ ?_
      · intro s hs
        obtain ⟨r, hr, hrs, hlen⟩ := hmem s hs
        subst hrs
        have hm1 : i1 ≠ m := colIdx?_ne (by decide) h1 hom
        rw [hEcell r i1 hm1, hcell1 r hlen, to_datetime_stable tsP hts1 hts2,
          ← hcell1 r hlen, ← hEcell r i1 hm1]
        exact set_getD_self _
      · intro s hs
        obtain ⟨r, hr, hrs, hlen⟩ := hmem s hs
        subst hrs
        apply optSet_fix
        intro i hi
        have hieq : o1 = some i := ((hci "headline").trans ho1.symm).symm.trans hi
        have him : i ≠ m := colIdx?_ne (by decide) (ho1.symm.trans hieq) hom
        obtain ⟨w, hw⟩ := hstripimg r hlen i (Or.inl hieq)
        rw [hEcell r i him, hw, strip_text_stable]
      · intro s hs
        obtain ⟨r, hr, hrs, hlen⟩ := hmem s hs
        subst hrs
        apply optSet_fix
        intro i hi
        have hieq : o2 = some i := ((hci "summary").trans ho2.symm).symm.trans hi
        have him : i ≠ m := colIdx?_ne (by decide) (ho2.symm.trans hieq) hom
        obtain ⟨w, hw⟩ := hstripimg r hlen i (Or.inr (Or.inl hieq))
        rw [hEcell r i him, hw, strip_text_stable]
      · intro s hs
        obtain ⟨r, hr, hrs, hlen⟩ := hmem s hs
        subst hrs
        apply optSet_fix
        intro i hi
        have hieq : o3 = some i := ((hci "source").trans ho3.symm).symm.trans hi
        have him : i ≠ m := colIdx?_ne (by decide) (ho3.symm.trans hieq) hom
        obtain ⟨w, hw⟩ := hstripimg r hlen i (Or.inr (Or.inr (Or.inl hieq)))
        rw [hEcell r i him, hw, strip_text_stable]
      · intro s hs
        obtain ⟨r, hr, hrs, hlen⟩ := hmem s hs
        subst hrs
        apply optSet_fix
        intro i hi
        have hieq : o4 = some i := ((hci "category").trans ho4.symm).symm.trans hi
        have him : i ≠ m := colIdx?_ne (by decide) (ho4.symm.trans hieq) hom
        obtain ⟨w, hw⟩ := hstripimg r hlen i (Or.inr (Or.inr (Or.inr hieq)))
        rw [hEcell r i him, hw, strip_text_stable]
      · unfold deriveSymbols
        rw [(hci "related_symbols").trans hor]
        refine setCol_self u "related_symbols_list" ((hci "related_symbols_list").trans hom)
          _ ?_
        intro s hs
        obtain ⟨r, hr, hrs, hlen⟩ := hmem s hs
        subst hrs
        have hjval : (E r).getD j .vNaN = (G r).getD j .vNaN := hEcell r j (fun he => hmj he.symm)
        rw [hjval]
        have hmval : (E r).getD m .vNaN = split_related ((G r).getD j .vNaN) := by
          show ((G r).set m _).getD m .vNaN = _
          exact getD_set_self _ _ (by rw [hlenG, hlen]; exact hbm)
        rw [← hmval]
        exact set_getD_self _

/-- C9 counterexample: clean_news is not idempotent.  A leading text column
whose value is " ...x" survives the first pass (the placeholder test sees the
leading space), but whitespace stripping turns it into "...x", so the second
pass drops the row: re-cleaning removes a further row. -/
theorem C9_counterexample :
    clean_news tsStable ⟨["headline", "timestamp"], [[.vStr " ...x", .vStr "t"]]⟩ =
      .ok ⟨["headline", "timestamp"], [[.vStr "...x", .vNaN]]⟩ ∧
    clean_news tsStable ⟨["headline", "timestamp"], [[.vStr "...x", .vNaN]]⟩ =
      .ok ⟨["headline", "timestamp"], ([] : List (List Val))⟩ ∧
    (⟨["headline", "timestamp"], [[Val.vStr "...x", Val.vNaN]]⟩ : Table) ≠
      ⟨["headline", "timestamp"], []⟩ :=
  ⟨rfl, rfl, by decide⟩

/-- C9 amended: under the pandas parser laws (re-parsing an already-parsed
datetime or number returns it, missing stays missing), clean_trades is
idempotent on well-formed tables carrying its columns; clean_news and
clean_sentiment_labels are idempotent provided additionally that no row of
the once-cleaned table has a first-column value beginning with "..." — text
normalization (whitespace stripping) can newly expose the placeholder prefix
in a leading text column, in which case the second pass removes that row. -/
theorem C9_idempotence (tsP : Val → Option Nat) (numP : Val → Option Rat)
    (hts1 : ∀ d, tsP (.vDate d) = some d) (hts2 : tsP .vNaN = none)
    (hnp1 : ∀ q, numP (.vNum q) = some q) (hnp2 : numP .vNaN = none) :
    (∀ t u : Table, WF t → "timestamp" ∈ t.cols → "price" ∈ t.cols →
      "volume" ∈ t.cols → clean_trades tsP numP t = .ok u →
      clean_trades tsP numP u = .ok u) ∧
    (∀ t u : Table, WF t → "timestamp" ∈ t.cols →
      clean_news tsP t = .ok u → (∀ r ∈ u.rows, keepRow r = true) →
      clean_news tsP u = .ok u) ∧
    (∀ t u : Table, WF t → "timestamp" ∈ t.cols → "confidence_score" ∈ t.cols →
      clean_sentiment_labels tsP numP t = .ok u → (∀ r ∈ u.rows, keepRow r = true) →
      clean_sentiment_labels tsP numP u = .ok u) :=
  ⟨fun t u hwf ht hp hv hok =>
      clean_trades_idem tsP numP hts1 hts2 hnp1 hnp2 t u hwf ht hp hv hok,
   fun t u hwf ht hok hplc => clean_news_idem tsP hts1 hts2 t u hwf ht hok hplc,
   fun t u hwf ht hc hok hplc =>
      clean_sentiment_idem tsP numP hts1 hts2 hnp1 hnp2 t u hwf ht hc hok hplc⟩

/-- Witness for C9 (amended): re-cleaning a concretely cleaned trades table
returns it unchanged. -/
theorem C9_idempotence_witness :
    clean_trades tsStable numStable
      ⟨["timestamp", "price", "volume"], [[.vNaN, .vNaN, .vNaN]]⟩ =
    .ok ⟨["timestamp", "price", "volume"], [[.vNaN, .vNaN, .vNaN]]⟩ :=
  (C9_idempotence tsStable numStable (fun _ => rfl) rfl (fun _ => rfl) rfl).1
    tradesW ⟨["timestamp", "price", "volume"], [[.vNaN, .vNaN, .vNaN]]⟩
    (by intro r hr; fin_cases hr <;> rfl) (by decide) (by decide) (by decide) rfl

/-! ### C1: placeholder-row removal -/

/-- C1: each cleaning operation (clean_trades, clean_news,
clean_sentiment_labels) removes exactly the rows whose first column's string
representation starts with the literal prefix "...", testing the original
unmodified first-column value before any type coercion; the output row count
equals the input row count minus the number of placeholder rows, and no other
row is dropped: the output rows correspond one-to-one, in order, to the
non-placeholder input rows, each output row agreeing with its source row on
every cell outside the columns the cleaner transforms. -/
theorem C1_placeholder_filtering (tsP : Val → Option Nat) (numP : Val → Option Rat) :
    (∀ t : Table, "timestamp" ∈ t.cols → "price" ∈ t.cols → "volume" ∈ t.cols →
      ∃ u, clean_trades tsP numP t = .ok u ∧
        u.rows.length + t.rows.countP (fun r => isPlaceholder (r.headD .vNaN)) = t.rows.length ∧
        u.rows.length = (t.rows.filter keepRow).length ∧
        List.Forall₂ (fun r r' => ∀ j : Nat,
            colIdx? t "timestamp" ≠ some j → colIdx? t "price" ≠ some j →
            colIdx? t "volume" ≠ some j →
            r'.getD j .vNaN = r.getD j .vNaN)
          (t.rows.filter keepRow) u.rows) ∧
    (∀ t : Table, WF t → "timestamp" ∈ t.cols →
      ∃ u, clean_news tsP t = .ok u ∧
        u.rows.length + t.rows.countP (fun r => isPlaceholder (r.headD .vNaN)) = t.rows.length ∧
        u.rows.length = (t.rows.filter keepRow).length ∧
        List.Forall₂ (fun r r' => ∀ j : Nat, j < t.cols.length →
            colIdx? t "timestamp" ≠ some j → colIdx? t "headline" ≠ some j →
            colIdx? t "summary" ≠ some j → colIdx? t "source" ≠ some j →
            colIdx? t "category" ≠ some j → colIdx? t "related_symbols_list" ≠ some j →
            r'.getD j .vNaN = r.getD j .vNaN)
          (t.rows.filter keepRow) u.rows) ∧
    (∀ t : Table, "timestamp" ∈ t.cols → "confidence_score" ∈ t.cols →
      ∃ u, clean_sentiment_labels tsP numP t = .ok u ∧
        u.rows.length + t.rows.countP (fun r => isPlaceholder (r.headD .vNaN)) = t.rows.length ∧
        u.rows.length = (t.rows.filter keepRow).length ∧
        List.Forall₂ (fun r r' => ∀ j : Nat,
            colIdx? t "timestamp" ≠ some j → colIdx? t "confidence_score" ≠ some j →
            colIdx? t "sentiment_label" ≠ some j →
            r'.getD j .vNaN = r.getD j .vNaN)
          (t.rows.filter keepRow) u.rows) := by
  refine ⟨fun t ht hp hv => ?_, fun t hwf ht => ?_, fun t ht hc => ?_⟩
  · obtain ⟨i1, h1⟩ := colIdx?_isSome_of_mem ht
    obtain ⟨i2, h2⟩ := colIdx?_isSome_of_mem hp
    obtain ⟨i3, h3⟩ := colIdx?_isSome_of_mem hv
    refine ⟨_, clean_trades_eq tsP numP t h1 h2 h3, ?_, ?_, ?_⟩
    · simp only [List.length_map]
      exact countP_placeholder t.rows
    · simp
    · simp only [List.map_map]
      apply forall2_map_self
      intro r hr j n1 n2 n3
      simp only [Function.comp_apply]
      rw [getD_set_ne _ _ (fun (he : i3 = j) => n3 (he ▸ h3)),
        getD_set_ne _ _ (fun (he : i2 = j) => n2 (he ▸ h2))]
      exact getD_set_ne _ _ (fun (he : i1 = j) => n1 (he ▸ h1))
  · obtain ⟨i1, h1⟩ := colIdx?_isSome_of_mem ht
    set F1 : List Val → List Val :=
      fun r => r.set i1 (to_datetime tsP (r.getD i1 .vNaN)) with hF1
    set T1 : Table := ⟨t.cols, (t.rows.filter keepRow).map F1⟩ with hT1
    obtain ⟨G1, hr1, hl1, hg1⟩ := coerceOpt_rows_fn T1 "headline" strip_text
    set T2 := coerceOpt T1 "headline" strip_text with hT2
    obtain ⟨G2, hr2, hl2, hg2⟩ := coerceOpt_rows_fn T2 "summary" strip_text
    set T3 := coerceOpt T2 "summary" strip_text with hT3
    obtain ⟨G3, hr3, hl3, hg3⟩ := coerceOpt_rows_fn T3 "source" strip_text
    set T4 := coerceOpt T3 "source" strip_text with hT4
    obtain ⟨G4, hr4, hl4, hg4⟩ := coerceOpt_rows_fn T4 "category" strip_text
    set T5 := coerceOpt T4 "category" strip_text with hT5
    have hcols2 : T2.cols = t.cols := cols_coerceOpt _ _ _
    have hcols3 : T3.cols = t.cols := (cols_coerceOpt _ _ _).trans hcols2
    have hcols4 : T4.cols = t.cols := (cols_coerceOpt _ _ _).trans hcols3
    have hcols5 : T5.cols = t.cols := (cols_coerceOpt _ _ _).trans hcols4
    have hrows5 : T5.rows = (t.rows.filter keepRow).map
        (fun r => G4 (G3 (G2 (G1 (F1 r))))) := by
      rw [hT5, hr4, hT4, hr3, hT3, hr2, hT2, hr1, hT1]
      simp [List.map_map, Function.comp_def]
    have hlen5 : ∀ r : List Val, (G4 (G3 (G2 (G1 (F1 r))))).length = r.length := by
      intro r
      rw [hl4, hl3, hl2, hl1]
      simp [hF1]
    have hpres : ∀ (r : List Val) (j : Nat),
        colIdx? t "timestamp" ≠ some j → colIdx? t "headline" ≠ some j →
        colIdx? t "summary" ≠ some j → colIdx? t "source" ≠ some j →
        colIdx? t "category" ≠ some j →
        (G4 (G3 (G2 (G1 (F1 r))))).getD j .vNaN = r.getD j .vNaN := by
      intro r j n1 nh nsm nsr nct
      rw [hg4 _ _ _ (fun i hi (he : i = j) =>
          nct (he ▸ ((colIdx?_congr _ hcols4).symm.trans hi))),
        hg3 _ _ _ (fun i hi (he : i = j) =>
          nsr (he ▸ ((colIdx?_congr _ hcols3).symm.trans hi))),
        hg2 _ _ _ (fun i hi (he : i = j) =>
          nsm (he ▸ ((colIdx?_congr _ hcols2).symm.trans hi))),
        hg1 _ _ _ (fun i hi (he : i = j) =>
          nh (he ▸ ((colIdx?_congr _ (show T1.cols = t.cols from rfl)).symm.trans hi)))]
      exact getD_set_ne _ _ (fun (he : i1 = j) => n1 (he ▸ h1))
    refine ⟨_, clean_news_eq tsP t h1, ?_, ?_, ?_⟩
    · show (deriveSymbols T5).rows.length + _ = _
      rw [length_rows_deriveSymbols, hT5, length_rows_coerceOpt, hT4, length_rows_coerceOpt,
        hT3, length_rows_coerceOpt, hT2, length_rows_coerceOpt]
      show ((t.rows.filter keepRow).map F1).length + _ = _
      rw [List.length_map]
      exact countP_placeholder t.rows
    · show (deriveSymbols T5).rows.length = _
      rw [length_rows_deriveSymbols, hT5, length_rows_coerceOpt, hT4, length_rows_coerceOpt,
        hT3, length_rows_coerceOpt, hT2, length_rows_coerceOpt]
      show ((t.rows.filter keepRow).map F1).length = _
      rw [List.length_map]
    · show List.Forall₂ _ (t.rows.filter keepRow) (deriveSymbols T5).rows
      cases hor : colIdx? t "related_symbols" with
      | none =>
        have horT5 : colIdx? T5 "related_symbols" = none := (colIdx?_congr _ hcols5).trans hor
        have hder : deriveSymbols T5 = T5 := by
          unfold deriveSymbols
          rw [horT5]
        rw [hder, hrows5]
        apply forall2_map_self
        intro r hr j hjlt n1 nh nsm nsr nct nrl
        exact hpres r j n1 nh nsm nsr nct
      | some jrs =>
        have horT5 : colIdx? T5 "related_symbols" = some jrs :=
          (colIdx?_congr _ hcols5).trans hor
        have hd : deriveSymbols T5 = setCol T5 "related_symbols_list"
            (T5.rows.map (fun r => split_related (r.getD jrs .vNaN))) := by
          unfold deriveSymbols
          rw [horT5]
        rw [hd]
        cases hom : colIdx? t "related_symbols_list" with
        | none =>
          have homT5 : colIdx? T5 "related_symbols_list" = none :=
            (colIdx?_congr _ hcols5).trans hom
          unfold setCol
          rw [homT5]
          show List.Forall₂ _ _ (List.zipWith (fun r v => r ++ [v]) T5.rows
            (T5.rows.map (fun r => split_related (r.getD jrs .vNaN))))
          rw [List.zipWith_map_right, List.zipWith_same, hrows5, List.map_map]
          apply forall2_map_self
          intro r hr j hjlt n1 nh nsm nsr nct nrl
          have hlen : r.length = t.cols.length := hwf r (List.mem_of_mem_filter hr)
          simp only [Function.comp_apply]
          rw [getD_append_left _ _ (by rw [hlen5, hlen]; exact hjlt)]
          exact hpres r j n1 nh nsm nsr nct
        | some m =>
          have homT5 : colIdx? T5 "related_symbols_list" = some m :=
            (colIdx?_congr _ hcols5).trans hom
          unfold setCol
          rw [homT5]
          show List.Forall₂ _ _ (List.zipWith (fun r v => r.set m v) T5.rows
            (T5.rows.map (fun r => split_related (r.getD jrs .vNaN))))
          rw [List.zipWith_map_right, List.zipWith_same, hrows5, List.map_map]
          apply forall2_map_self
          intro r hr j hjlt n1 nh nsm nsr nct nrl
          simp only [Function.comp_apply]
          rw [getD_set_ne _ _ (fun (he : m = j) => nrl (congrArg some he))]
          exact hpres r j n1 nh nsm nsr nct
  · obtain ⟨i1, h1⟩ := colIdx?_isSome_of_mem ht
    obtain ⟨i2, h2⟩ := colIdx?_isSome_of_mem hc
    refine ⟨_, clean_sentiment_eq tsP numP t h1 h2, ?_, ?_, ?_⟩
    · rw [length_rows_coerceOpt]
      simp only [List.length_map]
      exact countP_placeholder t.rows
    · rw [length_rows_coerceOpt]
      simp
    · rw [coerceOpt_rows_optSet]
      show List.Forall₂ _ _ ((((t.rows.filter keepRow).map _).map _).map
        (optSet (colIdx? t "sentiment_label") lower_strip))
      simp only [List.map_map]
      apply forall2_map_self
      intro r hr j n1 nc nsl
      simp only [Function.comp_apply]
      rw [optSet_getD_ne _ _ _ _ (fun i hi (he : i = j) => nsl (he ▸ hi)),
        getD_set_ne _ _ (fun (he : i2 = j) => nc (he ▸ h2))]
      exact getD_set_ne _ _ (fun (he : i1 = j) => n1 (he ▸ h1))

/-- Witness for C1 on a concrete trades table with one placeholder row. -/
theorem C1_placeholder_filtering_witness :
    ∃ u, clean_trades tsNone numNone tradesW = .ok u ∧
      u.rows.length + tradesW.rows.countP (fun r => isPlaceholder (r.headD .vNaN)) =
        tradesW.rows.length ∧
      u.rows.length = (tradesW.rows.filter keepRow).length ∧
      List.Forall₂ (fun r r' => ∀ j : Nat,
          colIdx? tradesW "timestamp" ≠ some j → colIdx? tradesW "price" ≠ some j →
          colIdx? tradesW "volume" ≠ some j →
          r'.getD j .vNaN = r.getD j .vNaN)
        (tradesW.rows.filter keepRow) u.rows :=
  (C1_placeholder_filtering tsNone numNone).1 tradesW (by decide) (by decide) (by decide)
